import Mathlib

/-!
Verification development for the task-orchestration core of the repository:
`src/signals.py` (publish-subscribe signal emitter), `src/task_manager.py`
(task registry / lifecycle state machine) and `src/orchestrator.py`
(execution strategies).

The Python modules are shallowly embedded: each Python class method becomes a
Lean function on an explicit state value.  Python dictionaries keyed by unique
ids are modelled as association lists in insertion order (CPython dicts
preserve insertion order, and the code never deletes entries, so list order is
creation order).  `datetime.utcnow()` readings are modelled by an explicit
`now : Nat` argument; uuid generation by an explicit id argument.  Python's
`Any` values are modelled by the small inductive `Value`.  Exceptions are
modelled with `Except String`.
-/

/-- `TaskStatus` from `src/signals.py`. -/
inductive TaskStatus where
  | pending
  | running
  | completed
  | failed
  | cancelled
deriving DecidableEq, Repr

/-- `SignalType` from `src/signals.py`. -/
inductive SignalType where
  | task_started
  | task_completed
  | task_failed
  | task_cancelled
  | agent_ready
  | agent_busy
deriving DecidableEq, Repr

/-- `TaskPriority` from `src/task_manager.py` (an `int` enum). -/
inductive TaskPriority where
  | low
  | normal
  | high
  | critical
deriving DecidableEq, Repr

/-- The numeric value of a priority (`TaskPriority.value` in Python:
LOW=1, NORMAL=2, HIGH=3, CRITICAL=4). -/
def TaskPriority.value : TaskPriority → Nat
  | .low => 1
  | .normal => 2
  | .high => 3
  | .critical => 4

/-- `TaskPriority.name` in Python (the enum member name). -/
def TaskPriority.pyName : TaskPriority → String
  | .low => "LOW"
  | .normal => "NORMAL"
  | .high => "HIGH"
  | .critical => "CRITICAL"

/-- `TaskExecutionMode` from `src/task_manager.py`. -/
inductive TaskExecutionMode where
  | sequential
  | parallel
deriving DecidableEq, Repr

/-- Model of a Python `Any` value appearing as a task result or in a data map. -/
inductive Value where
  | vNone
  | vStr (s : String)
  | vNat (n : Nat)
deriving DecidableEq, Repr

/-- Coerce an optional result into the value stored in an event's data map
(Python `None` becomes `vNone`). -/
def optToValue : Option Value → Value
  | none => .vNone
  | some v => v

/-- Coerce an optional duration into a data-map value. -/
def durToValue : Option Nat → Value
  | none => .vNone
  | some n => .vNat n

/-- `SignalPayload` from `src/signals.py`.  The generated `signal_id` (uuid)
and `timestamp` fields play no role in any claim and are not modelled. -/
structure SignalPayload where
  signal_type : SignalType
  task_id : String
  agent_id : Option String := none
  data : List (String × Value) := []
  error : Option String := none
deriving DecidableEq, Repr

/-- `Subscription` from `src/signals.py`.  The stored Python callable is
modelled by an opaque handle `callback : Nat`; the behaviour attached to a
handle is supplied externally when delivery is modelled (see
`SignalEmitter.emit`). -/
structure Subscription where
  subscriber_id : String
  signal_types : List SignalType
  callback : Nat
  task_filter : Option String := none
deriving DecidableEq, Repr

/-- `SignalEmitter` state from `src/signals.py`: subscriber list and bounded
history. -/
structure SignalEmitter where
  subscribers : List Subscription := []
  signal_history : List SignalPayload := []
  max_history : Nat := 1000
deriving DecidableEq, Repr

/-- The last `n` elements of a list (Python `l[-n:]` for `n > 0`). -/
def takeLast (l : List α) (n : Nat) : List α :=
  l.drop (l.length - n)

/-- Python slice `l[-limit:]`: for `limit = 0` this is `l[0:] = l`
(since `-0 = 0`), otherwise the last `limit` elements. -/
def sliceLast (l : List α) (limit : Nat) : List α :=
  if limit = 0 then l else takeLast l limit

namespace SignalEmitter

/-- The skip test inside `_find_matching_subscribers`:
`if sub.task_filter and sub.task_filter != signal.task_id: continue`.
Python truthiness: a filter of `None` or `""` never blocks. -/
def filterBlocks (tf : Option String) (tid : String) : Bool :=
  match tf with
  | none => false
  | some f => !(f == "") && !(f == tid)

/-- A subscription matches a signal (`_find_matching_subscribers` body):
the signal type is in the subscription's set and the task filter does not
block. -/
def subMatches (sub : Subscription) (s : SignalPayload) : Bool :=
  sub.signal_types.contains s.signal_type && !(filterBlocks sub.task_filter s.task_id)

/-- `SignalEmitter._find_matching_subscribers`. -/
def matching (e : SignalEmitter) (s : SignalPayload) : List Subscription :=
  e.subscribers.filter (fun sub => subMatches sub s)

/-- The state change performed by `SignalEmitter.emit` under the lock:
append to history, then evict the oldest entries past `max_history`
(`self._signal_history = self._signal_history[-self._max_history:]`). -/
def emitState (e : SignalEmitter) (s : SignalPayload) : SignalEmitter :=
  let h := e.signal_history ++ [s]
  { e with signal_history := if h.length > e.max_history then takeLast h e.max_history else h }

/-- `SignalEmitter.emit`.  After the state update, each matching subscriber's
callback is invoked outside the lock inside `try/except`: a callback is a
state transformer on an observer state `σ` that may additionally raise
(return an error string); the raised error is caught (logged) and discarded,
and the loop continues with the next subscriber.  `cb` maps a callback handle
to its behaviour.  Returns the new emitter state and the observer state after
all deliveries. -/
def emit (e : SignalEmitter) (s : SignalPayload)
    (cb : Nat → SignalPayload → σ → σ × Option String) (st : σ) :
    SignalEmitter × σ :=
  (e.emitState s,
   (e.matching s).foldl (fun acc sub => (cb sub.callback s acc).1) st)

/-- `SignalEmitter.subscribe`: always appends a new `Subscription` entry and
returns the subscriber id. -/
def subscribe (e : SignalEmitter) (subscriber_id : String)
    (signal_types : List SignalType) (callback : Nat)
    (task_filter : Option String := none) : SignalEmitter × String :=
  ({ e with subscribers :=
      e.subscribers ++ [⟨subscriber_id, signal_types, callback, task_filter⟩] },
   subscriber_id)

/-- `SignalEmitter.unsubscribe`: removes every entry with the given
subscriber id; returns whether the subscriber count decreased. -/
def unsubscribe (e : SignalEmitter) (subscriber_id : String) :
    SignalEmitter × Bool :=
  let remaining := e.subscribers.filter (fun sub => !(sub.subscriber_id == subscriber_id))
  ({ e with subscribers := remaining },
   decide (remaining.length < e.subscribers.length))

/-- `SignalEmitter.get_history`: copy the history, apply the optional type and
task filters, then return the last `limit` entries most-recent-first
(`list(reversed(history[-limit:]))`). -/
def get_history (e : SignalEmitter) (signal_type : Option SignalType := none)
    (task_id : Option String := none) (limit : Nat := 100) : List SignalPayload :=
  let h := e.signal_history
  let h := match signal_type with
    | none => h
    | some ty => h.filter (fun s => s.signal_type == ty)
  let h := match task_id with
    | none => h
    | some tid => h.filter (fun s => s.task_id == tid)
  (sliceLast h limit).reverse

end SignalEmitter

/-- `TaskMetadata` from `src/task_manager.py`.  Timestamps are `Nat` readings
of the modelled clock; `metadata` is the generic data map (the orchestrator's
callable bindings stored under `_task_func` etc. are modelled separately, as a
function from task id to callable, since Lean values cannot live in the
`Value` map). -/
structure TaskMetadata where
  task_id : String
  name : String := ""
  description : String := ""
  priority : TaskPriority := .normal
  status : TaskStatus := .pending
  agent_id : Option String := none
  parent_task_id : Option String := none
  dependencies : List String := []
  created_at : Nat := 0
  started_at : Option Nat := none
  completed_at : Option Nat := none
  error : Option String := none
  result : Option Value := none
  execution_mode : TaskExecutionMode := .sequential
  metadata : List (String × Value) := []
deriving DecidableEq, Repr

/-- `TaskMetadata.duration_seconds`: defined only when both timestamps are
set. -/
def TaskMetadata.duration_seconds (t : TaskMetadata) : Option Nat :=
  match t.started_at, t.completed_at with
  | some a, some b => some (b - a)
  | _, _ => none

/-- `TaskMetadata.is_ready`: pending and all dependencies among the completed
ids. -/
def TaskMetadata.is_ready (t : TaskMetadata) (completed_tasks : List String) : Bool :=
  t.status == TaskStatus.pending && t.dependencies.all (fun d => completed_tasks.contains d)

/-- `TaskManager` state from `src/task_manager.py`: the `_tasks` dict in
insertion (= creation) order, and the `_parent_to_children` map. -/
structure TaskManager where
  tasks : List TaskMetadata := []
  parent_to_children : List (String × List String) := []
deriving DecidableEq, Repr

/-- The result of a mutating `TaskManager` method: the new state, the boolean
the method returns, and the signals it emits (in order) after releasing the
lock. -/
structure MgrResult where
  tm : TaskManager
  ok : Bool
  events : List SignalPayload
deriving DecidableEq, Repr

namespace TaskManager

/-- `self._tasks.get(task_id)`: the entry with the given id. -/
def get (tm : TaskManager) (task_id : String) : Option TaskMetadata :=
  tm.tasks.find? (fun t => t.task_id == task_id)

/-- Replace the entry with the given id by applying `f` to it (dict item
mutation; ids are unique, other entries untouched). -/
def updateById (tasks : List TaskMetadata) (task_id : String)
    (f : TaskMetadata → TaskMetadata) : List TaskMetadata :=
  tasks.map (fun t => if t.task_id == task_id then f t else t)

/-- `TaskManager.create_task`: registers a new pending task (the fresh uuid
and the `utcnow()` reading are the explicit `task_id` / `now` arguments) and
records the parent-to-children edge when a parent is given. -/
def create_task (tm : TaskManager) (task_id : String) (name : String)
    (description : String := "") (priority : TaskPriority := .normal)
    (agent_id : Option String := none) (parent_task_id : Option String := none)
    (dependencies : List String := [])
    (execution_mode : TaskExecutionMode := .sequential)
    (metadata : List (String × Value) := []) (now : Nat := 0) :
    TaskManager × String :=
  let task : TaskMetadata :=
    { task_id := task_id, name := name, description := description,
      priority := priority, agent_id := agent_id,
      parent_task_id := parent_task_id, dependencies := dependencies,
      created_at := now, execution_mode := execution_mode, metadata := metadata }
  let ptc := match parent_task_id with
    | none => tm.parent_to_children
    | some pid =>
      match tm.parent_to_children.find? (fun kv => kv.1 == pid) with
      | none => tm.parent_to_children ++ [(pid, [task_id])]
      | some _ => tm.parent_to_children.map
          (fun kv => if kv.1 == pid then (kv.1, kv.2 ++ [task_id]) else kv)
  ({ tasks := tm.tasks ++ [task], parent_to_children := ptc }, task_id)

/-- The `TASK_STARTED` payload emitted by `start_task` (built from the task
after mutation). -/
def startedPayload (t : TaskMetadata) : SignalPayload :=
  { signal_type := .task_started, task_id := t.task_id, agent_id := t.agent_id,
    data := [("name", .vStr t.name), ("priority", .vStr t.priority.pyName)] }

/-- `TaskManager.start_task`: fails (returns `false`, no event) when the task
is missing or not pending; otherwise sets running + start time, overwrites the
agent id only when the argument is truthy (neither `None` nor `""` —
`if agent_id:` in Python), and emits a started event. -/
def start_task (tm : TaskManager) (task_id : String)
    (agent_id : Option String := none) (now : Nat := 0) : MgrResult :=
  match tm.get task_id with
  | none => ⟨tm, false, []⟩
  | some t =>
    if t.status != TaskStatus.pending then ⟨tm, false, []⟩
    else
      let upd : TaskMetadata → TaskMetadata := fun u =>
        { u with status := .running, started_at := some now,
                 agent_id := match agent_id with
                   | none => u.agent_id
                   | some a => if a == "" then u.agent_id else some a }
      ⟨{ tm with tasks := updateById tm.tasks task_id upd }, true,
       [startedPayload (upd t)]⟩

/-- The `TASK_COMPLETED` payload emitted by `complete_task` (duration computed
from the task after mutation). -/
def completedPayload (t : TaskMetadata) (result : Option Value) : SignalPayload :=
  { signal_type := .task_completed, task_id := t.task_id, agent_id := t.agent_id,
    data := [("name", .vStr t.name), ("result", optToValue result),
             ("duration_seconds", durToValue t.duration_seconds)] }

/-- `TaskManager.complete_task`: fails (returns `false`, no event) when the
task is missing or not running; otherwise sets completed + end time + result
and emits a completed event. -/
def complete_task (tm : TaskManager) (task_id : String)
    (result : Option Value := none) (now : Nat := 0) : MgrResult :=
  match tm.get task_id with
  | none => ⟨tm, false, []⟩
  | some t =>
    if t.status != TaskStatus.running then ⟨tm, false, []⟩
    else
      let upd : TaskMetadata → TaskMetadata := fun u =>
        { u with status := .completed, completed_at := some now, result := result }
      ⟨{ tm with tasks := updateById tm.tasks task_id upd }, true,
       [completedPayload (upd t) result]⟩

/-- The `TASK_FAILED` payload emitted by `fail_task`. -/
def failedPayload (t : TaskMetadata) (error : String) : SignalPayload :=
  { signal_type := .task_failed, task_id := t.task_id, agent_id := t.agent_id,
    data := [("name", .vStr t.name)], error := some error }

/-- `TaskManager.fail_task`: fails only when the task is missing; for any
existing task — with NO check of the current status — it sets failed + end
time + error and emits a failed event. -/
def fail_task (tm : TaskManager) (task_id : String) (error : String)
    (now : Nat := 0) : MgrResult :=
  match tm.get task_id with
  | none => ⟨tm, false, []⟩
  | some t =>
    let upd : TaskMetadata → TaskMetadata := fun u =>
      { u with status := .failed, completed_at := some now, error := some error }
    ⟨{ tm with tasks := updateById tm.tasks task_id upd }, true,
     [failedPayload (upd t) error]⟩

/-- The set (as a list) of ids of completed tasks, built inside
`get_ready_tasks`. -/
def completedIds (tm : TaskManager) : List String :=
  (tm.tasks.filter (fun t => t.status == TaskStatus.completed)).map (fun t => t.task_id)

/-- `ready_tasks.sort(key=lambda t: t.priority.value, reverse=True)`:
Python's `list.sort` is stable, so over the four priority levels the stable
descending sort is exactly the concatenation of the priority classes from
critical down to low, each class in its original order. -/
def sortByPriorityDesc (l : List TaskMetadata) : List TaskMetadata :=
  l.filter (fun t => t.priority == TaskPriority.critical)
    ++ l.filter (fun t => t.priority == TaskPriority.high)
    ++ l.filter (fun t => t.priority == TaskPriority.normal)
    ++ l.filter (fun t => t.priority == TaskPriority.low)

/-- `TaskManager.get_ready_tasks`: the tasks (in creation order) that are
ready with respect to the currently completed ids, stably sorted by
descending priority. -/
def get_ready_tasks (tm : TaskManager) : List TaskMetadata :=
  sortByPriorityDesc (tm.tasks.filter (fun t => t.is_ready tm.completedIds))

/-- `TaskManager.get_children_tasks`. -/
def get_children_tasks (tm : TaskManager) (parent_task_id : String) :
    List TaskMetadata :=
  match tm.parent_to_children.find? (fun kv => kv.1 == parent_task_id) with
  | none => []
  | some kv => kv.2.filterMap (fun tid => tm.get tid)

/-- `TaskManager.has_pending_tasks`: any pending or running task. -/
def has_pending_tasks (tm : TaskManager) : Bool :=
  tm.tasks.any (fun t =>
    t.status == TaskStatus.pending || t.status == TaskStatus.running)

end TaskManager

instance : DecidableEq (Except String Value) := fun a b =>
  match a, b with
  | .ok v, .ok w => decidable_of_iff (v = w) (by simp)
  | .error e, .error f => decidable_of_iff (e = f) (by simp)
  | .ok _, .error _ => .isFalse (by simp)
  | .error _, .ok _ => .isFalse (by simp)

/-- The result of one task execution by the executor: the new registry state,
the Python return-or-raise (`Except`), the signals emitted along the way, and
the list of task ids whose bound callable was actually invoked (the
observable "the callable ran" trace). -/
structure ExecResult where
  tm : TaskManager
  result : Except String Value
  events : List SignalPayload
  invoked : List String
deriving DecidableEq, Repr

/-- A task's bound callable is modelled by its outcome: a returned `Value` or
a raised exception message.  The table of `_task_func` bindings stored in
`task.metadata` by `TaskOrchestrator.create_task` is modelled as a function
from task id to optional callable (with the bound `args`/`kwargs` already
applied, since they are fixed at creation time). -/
def FuncTable : Type := String → Option (Except String Value)

namespace TaskExecutor

/-- `TaskExecutor.execute_task` from `src/orchestrator.py`: raises when the
task is missing; otherwise calls `start_task` — whose boolean result the
source IGNORES — then invokes the callable unconditionally; on a returned
value calls `complete_task` and returns it, on a raised exception calls
`fail_task` and re-raises. -/
def execute_task (tm : TaskManager) (task_id : String)
    (task_func : Except String Value) (now : Nat := 0) : ExecResult :=
  match tm.get task_id with
  | none => ⟨tm, .error ("Task " ++ task_id ++ " not found"), [], []⟩
  | some _ =>
    let r1 := tm.start_task task_id none now
    match task_func with
    | .ok v =>
      let r2 := r1.tm.complete_task task_id (some v) now
      ⟨r2.tm, .ok v, r1.events ++ r2.events, [task_id]⟩
    | .error e =>
      let r2 := r1.tm.fail_task task_id e now
      ⟨r2.tm, .error e, r1.events ++ r2.events, [task_id]⟩

end TaskExecutor

namespace TaskOrchestrator

/-- `TaskOrchestrator.execute_task`: raises when the task is missing or has no
bound callable in its metadata; otherwise delegates to the executor. -/
def execute_task (tm : TaskManager) (funcs : FuncTable) (task_id : String)
    (now : Nat := 0) : ExecResult :=
  match tm.get task_id with
  | none => ⟨tm, .error ("Task " ++ task_id ++ " not found"), [], []⟩
  | some _ =>
    match funcs task_id with
    | none => ⟨tm, .error ("No task function defined for " ++ task_id), [], []⟩
    | some f => TaskExecutor.execute_task tm task_id f now

/-- The result of a batch execution strategy: final registry state, the
results dict in insertion order, and the invocation trace. -/
structure BatchResult (β : Type) where
  tm : TaskManager
  results : List (String × β)
  invoked : List String
deriving DecidableEq, Repr

/-- `TaskOrchestrator.execute_tasks_sequential`: run each id in list order on
the calling thread; a returned value is recorded under the id, the first
raised exception breaks the loop (no entry, remainder never attempted). -/
def execute_tasks_sequential (tm : TaskManager) (funcs : FuncTable)
    (task_ids : List String) (now : Nat := 0) : BatchResult Value :=
  match task_ids with
  | [] => ⟨tm, [], []⟩
  | task_id :: rest =>
    let r := execute_task tm funcs task_id now
    match r.result with
    | .ok v =>
      let R := execute_tasks_sequential r.tm funcs rest now
      ⟨R.tm, (task_id, v) :: R.results, r.invoked ++ R.invoked⟩
    | .error _ => ⟨r.tm, [], r.invoked⟩

/-- Python dict assignment `d[k] = v`: overwrite in place when the key exists,
otherwise append. -/
def dictInsert (d : List (String × β)) (k : String) (v : β) : List (String × β) :=
  if d.any (fun kv => kv.1 == k) then
    d.map (fun kv => if kv.1 == k then (k, v) else kv)
  else d ++ [(k, v)]

/-- `d.get(k)` on a dict built by repeated assignment: the LAST value written
for the key (models `self._futures[task_id] = future` overwriting on
resubmission of the same id). -/
def lookupLast (d : List (String × β)) (k : String) : Option β :=
  (d.reverse.find? (fun kv => kv.1 == k)).map (fun kv => kv.2)

/-- The submit loop of `execute_tasks_parallel` skips (with an error log) ids
that are missing from the registry or have no bound callable; the rest are
submitted to the pool.  Existence of a task and of its binding never changes
during execution, so the check against the initial state is exact. -/
def parallelSubmissions (tm : TaskManager) (funcs : FuncTable)
    (task_ids : List String) : List String :=
  task_ids.filter (fun id => (tm.get id).isSome && (funcs id).isSome)

/-- One pooled submission of the submit loop of `execute_tasks_parallel`:
look up the bound callable and run `TaskExecutor.execute_task`, accumulating
the final state, the submission outcomes (the futures' results, in
submission order, later submissions of the same id shadowing earlier ones as
in `self._futures[task_id] = future`) and the invocation trace. -/
def parStep (funcs : FuncTable) (now : Nat)
    (acc : TaskManager × List (String × Except String Value) × List String)
    (id : String) : TaskManager × List (String × Except String Value) × List String :=
  let f := (funcs id).getD (.error "no function")
  let r := TaskExecutor.execute_task acc.1 id f now
  (r.tm, acc.2.1 ++ [(id, r.result)], acc.2.2 ++ r.invoked)

/-- The result-collection loop of `execute_tasks_parallel`: for each input id
in order, if a future exists for it, `future.result()` either returns a value
(recorded as `some v`) or re-raises the executor exception, which is caught
and recorded as a `none` slot (`results[task_id] = None`). -/
def buildResults (outcomes : List (String × Except String Value))
    (task_ids : List String) (acc : List (String × Option Value)) :
    List (String × Option Value) :=
  task_ids.foldl
    (fun acc id =>
      match lookupLast outcomes id with
      | none => acc
      | some exc =>
        dictInsert acc id (match exc with | .ok v => some v | .error _ => none))
    acc

/-- `TaskOrchestrator.execute_tasks_parallel`: submit every valid id to the
pool (each submission runs `TaskExecutor.execute_task`; the model linearizes
the pooled executions in submission order), then join-all over the input
ids.  Missing/unbound ids were never submitted and get no entry. -/
def execute_tasks_parallel (tm : TaskManager) (funcs : FuncTable)
    (task_ids : List String) (now : Nat := 0) : BatchResult (Option Value) :=
  let submissions := parallelSubmissions tm funcs task_ids
  let run := submissions.foldl (parStep funcs now) (tm, [], [])
  ⟨run.1, buildResults run.2.1 task_ids [], run.2.2⟩

end TaskOrchestrator

/-- The pointwise update `start_task` applies on success. -/
def startUpd (agent_id : Option String) (now : Nat) :
    TaskMetadata → TaskMetadata := fun u =>
  { u with status := .running, started_at := some now,
           agent_id := match agent_id with
             | none => u.agent_id
             | some a => if a == "" then u.agent_id else some a }

/-- The pointwise update `complete_task` applies on success. -/
def completeUpd (r : Option Value) (now : Nat) : TaskMetadata → TaskMetadata :=
  fun u => { u with status := .completed, completed_at := some now, result := r }

/-- The pointwise update `fail_task` applies. -/
def failUpd (error : String) (now : Nat) : TaskMetadata → TaskMetadata :=
  fun u => { u with status := .failed, completed_at := some now, error := some error }

/-- Three concrete events for a history witness. -/
def evsC7 : List SignalPayload :=
  [{ signal_type := .agent_ready, task_id := "1" },
   { signal_type := .agent_ready, task_id := "2" },
   { signal_type := .agent_ready, task_id := "3" }]

/-- The matching rule exactly as the specification states it (for comparison
with the code's rule): type subscribed, and filter nil or equal to the
event's task id. -/
def claimFilterRule (sub : Subscription) (s : SignalPayload) : Prop :=
  s.signal_type ∈ sub.signal_types
    ∧ (sub.task_filter = none ∨ sub.task_filter = some s.task_id)

/-- A subscription whose task filter is the empty string. -/
def subEmptyFilter : Subscription := ⟨"s1", [.task_completed], 0, some ""⟩

/-- An emitter with only the empty-string-filter subscription. -/
def emC8 : SignalEmitter := { subscribers := [subEmptyFilter] }

/-- A completed event for task `"t1"`. -/
def evC8 : SignalPayload := { signal_type := .task_completed, task_id := "t1" }

/-- A second registry fixture for the sequential witness: two pending tasks
and a task bound to a raising callable. -/
def tmSeq : TaskManager :=
  { tasks := [{ task_id := "a", name := "A" }, { task_id := "b", name := "B" },
              { task_id := "c", name := "C" }] }

/-- Callables for the sequential witness: `a` returns 1, `b` raises, `c`
returns 3. -/
def funcsSeq : FuncTable := fun id =>
  if id == "a" then some (.ok (.vNat 1))
  else if id == "b" then some (.error "boom")
  else if id == "c" then some (.ok (.vNat 3))
  else none

/-- The submission outcome of a bound callable (`getD` supplies the dead
branch for ids that were filtered out before submission). -/
def excOf (funcs : FuncTable) (id : String) : Except String Value :=
  (funcs id).getD (.error "no function")

/-- The value recorded in the result map for an outcome: the returned value,
or `none` for a caught exception. -/
def excToSlot (exc : Except String Value) : Option Value :=
  match exc with | .ok v => some v | .error _ => none

/-- A registry with mixed priorities and one dependency-blocked task, for
the readiness witness. -/
def tmReady : TaskManager :=
  { tasks := [{ task_id := "a", priority := .low },
              { task_id := "b", priority := .high },
              { task_id := "c", priority := .high },
              { task_id := "d", priority := .critical, dependencies := ["z"] }] }

/-- A pending task used as a concrete fixture. -/
def tPending : TaskMetadata := { task_id := "t", name := "n" }

/-- A registry holding the single pending task. -/
def tmPending : TaskManager := { tasks := [tPending] }

/-- A task already in the terminal completed status. -/
def tCompleted : TaskMetadata := { task_id := "t", name := "n", status := .completed }

/-- A registry holding the single completed task. -/
def tmCompleted : TaskManager := { tasks := [tCompleted] }

/-- A running task. -/
def tRunning : TaskMetadata :=
  { task_id := "t", name := "n", status := .running, started_at := some 1 }

/-- A registry holding the single running task. -/
def tmRunning : TaskManager := { tasks := [tRunning] }

/-- A callable table binding task `"t"` to a callable returning `1`. -/
def funcsOk : FuncTable := fun id => if id == "t" then some (.ok (.vNat 1)) else none

section Helpers

/-- `find?` commutes with a map that does not change the predicate. -/
theorem findq_map_pred {α : Type} (g : α → α) (p : α → Bool)
    (h : ∀ u, p (g u) = p u) (l : List α) :
    (l.map g).find? p = (l.find? p).map g := by
  induction l with
  | nil => rfl
  | cons a l ih =>
    simp only [List.map_cons, List.find?]
    rw [h a]
    cases hpa : p a <;> simp [ih]

/-- Looking up any id after an id-preserving pointwise update. -/
theorem get_updateById (tm : TaskManager) (id k : String)
    (f : TaskMetadata → TaskMetadata) (hf : ∀ u, (f u).task_id = u.task_id) :
    TaskManager.get { tm with tasks := TaskManager.updateById tm.tasks id f } k
      = (tm.get k).map (fun t => if t.task_id == id then f t else t) := by
  show (TaskManager.updateById tm.tasks id f).find? (fun t => t.task_id == k)
      = ((tm.tasks.find? (fun t => t.task_id == k)).map
          (fun t => if t.task_id == id then f t else t))
  rw [TaskManager.updateById]
  exact findq_map_pred _ _
    (fun u => by by_cases hu : u.task_id == id <;> simp [hu, hf u]) tm.tasks

/-- Looking up the updated id: the stored task gets the update applied. -/
theorem get_updateById_self (tm : TaskManager) (id : String)
    (f : TaskMetadata → TaskMetadata) (hf : ∀ u, (f u).task_id = u.task_id)
    (t : TaskMetadata) (h : tm.get id = some t) :
    TaskManager.get { tm with tasks := TaskManager.updateById tm.tasks id f } id
      = some (f t) := by
  have hfind : tm.tasks.find? (fun u => u.task_id == id) = some t := h
  have hp : (t.task_id == id) = true :=
    @List.find?_some TaskMetadata (fun u => u.task_id == id) t tm.tasks hfind
  have ht : t.task_id = id := by simpa using hp
  rw [get_updateById tm id id f hf, h]
  simp [ht]

/-- Looking up a different id: unchanged. -/
theorem get_updateById_ne (tm : TaskManager) (id k : String) (hk : k ≠ id)
    (f : TaskMetadata → TaskMetadata) (hf : ∀ u, (f u).task_id = u.task_id) :
    TaskManager.get { tm with tasks := TaskManager.updateById tm.tasks id f } k
      = tm.get k := by
  rw [get_updateById tm id k f hf]
  cases h : tm.get k with
  | none => rfl
  | some t =>
    have hfind : tm.tasks.find? (fun u => u.task_id == k) = some t := h
    have hp : (t.task_id == k) = true :=
      @List.find?_some TaskMetadata (fun u => u.task_id == k) t tm.tasks hfind
    have ht : t.task_id = k := by simpa using hp
    simp [ht, hk]

/-- Updates never create or destroy tasks. -/
theorem get_updateById_isSome (tm : TaskManager) (id k : String)
    (f : TaskMetadata → TaskMetadata) (hf : ∀ u, (f u).task_id = u.task_id) :
    (TaskManager.get { tm with tasks := TaskManager.updateById tm.tasks id f } k).isSome
      = (tm.get k).isSome := by
  rw [get_updateById tm id k f hf]
  cases tm.get k <;> rfl

/-- `start_task` preserves which ids exist. -/
theorem start_task_get_isSome (tm : TaskManager) (id : String)
    (a : Option String) (now : Nat) (k : String) :
    ((tm.start_task id a now).tm.get k).isSome = (tm.get k).isSome := by
  rw [TaskManager.start_task]
  cases h : tm.get id with
  | none => rfl
  | some t =>
    by_cases hs : t.status != TaskStatus.pending
    · simp [hs]
    · simp only [hs, if_false, Bool.false_eq_true]
      exact get_updateById_isSome tm id k _ (fun u => rfl)

/-- `complete_task` preserves which ids exist. -/
theorem complete_task_get_isSome (tm : TaskManager) (id : String)
    (r : Option Value) (now : Nat) (k : String) :
    ((tm.complete_task id r now).tm.get k).isSome = (tm.get k).isSome := by
  rw [TaskManager.complete_task]
  cases h : tm.get id with
  | none => rfl
  | some t =>
    by_cases hs : t.status != TaskStatus.running
    · simp [hs]
    · simp only [hs, if_false, Bool.false_eq_true]
      exact get_updateById_isSome tm id k _ (fun u => rfl)

/-- `fail_task` preserves which ids exist. -/
theorem fail_task_get_isSome (tm : TaskManager) (id : String)
    (e : String) (now : Nat) (k : String) :
    ((tm.fail_task id e now).tm.get k).isSome = (tm.get k).isSome := by
  rw [TaskManager.fail_task]
  cases h : tm.get id with
  | none => rfl
  | some t => exact get_updateById_isSome tm id k _ (fun u => rfl)

/-- The executor preserves which ids exist. -/
theorem exec_get_isSome (tm : TaskManager) (id : String)
    (f : Except String Value) (now : Nat) (k : String) :
    ((TaskExecutor.execute_task tm id f now).tm.get k).isSome
      = (tm.get k).isSome := by
  rw [TaskExecutor.execute_task]
  cases h : tm.get id with
  | none => rfl
  | some t =>
    cases f with
    | ok v =>
      show (((tm.start_task id none now).tm.complete_task id (some v) now).tm.get k).isSome = _
      rw [complete_task_get_isSome, start_task_get_isSome]
    | error e =>
      show (((tm.start_task id none now).tm.fail_task id e now).tm.get k).isSome = _
      rw [fail_task_get_isSome, start_task_get_isSome]

/-- When the task exists, the executor's return-or-raise is exactly the
callable's outcome, and the callable is invoked (once) regardless of the
ignored `start_task` result. -/
theorem exec_result_invoked (tm : TaskManager) (id : String)
    (f : Except String Value) (now : Nat) (h : (tm.get id).isSome = true) :
    (TaskExecutor.execute_task tm id f now).result = f
      ∧ (TaskExecutor.execute_task tm id f now).invoked = [id] := by
  rw [TaskExecutor.execute_task]
  cases hg : tm.get id with
  | none => rw [hg] at h; simp at h
  | some t => cases f <;> exact ⟨rfl, rfl⟩

/-- The orchestrator's single-task execution preserves which ids exist. -/
theorem orch_exec_get_isSome (tm : TaskManager) (funcs : FuncTable)
    (id : String) (now : Nat) (k : String) :
    ((TaskOrchestrator.execute_task tm funcs id now).tm.get k).isSome
      = (tm.get k).isSome := by
  rw [TaskOrchestrator.execute_task]
  cases hg : tm.get id with
  | none => rfl
  | some t =>
    cases hf : funcs id with
    | none => rfl
    | some f => exact exec_get_isSome tm id f now k

/-- The orchestrator's single-task execution: outcome and invocation trace,
characterized by existence of the task and its binding. -/
theorem orch_exec_result (tm : TaskManager) (funcs : FuncTable)
    (id : String) (now : Nat) (f : Except String Value)
    (hg : (tm.get id).isSome = true) (hf : funcs id = some f) :
    (TaskOrchestrator.execute_task tm funcs id now).result = f
      ∧ (TaskOrchestrator.execute_task tm funcs id now).invoked = [id] := by
  rw [TaskOrchestrator.execute_task]
  cases hgg : tm.get id with
  | none => rw [hgg] at hg; simp at hg
  | some t =>
    rw [hf]
    exact exec_result_invoked tm id f now (by rw [hgg]; rfl)

/-- When the task is missing or unbound, the orchestrator's single-task
execution raises, changes nothing and invokes nothing. -/
theorem orch_exec_invalid (tm : TaskManager) (funcs : FuncTable)
    (id : String) (now : Nat)
    (h : ((tm.get id).isSome && (funcs id).isSome) = false) :
    (TaskOrchestrator.execute_task tm funcs id now).tm = tm
      ∧ (∃ e, (TaskOrchestrator.execute_task tm funcs id now).result = .error e)
      ∧ (TaskOrchestrator.execute_task tm funcs id now).invoked = [] := by
  rw [TaskOrchestrator.execute_task]
  cases hgg : tm.get id with
  | none => exact ⟨rfl, ⟨_, rfl⟩, rfl⟩
  | some t =>
    cases hff : funcs id with
    | none => exact ⟨rfl, ⟨_, rfl⟩, rfl⟩
    | some f => rw [hgg, hff] at h; simp at h

/-- `start_task` on an existing pending task. -/
theorem start_task_pending (tm : TaskManager) (id : String) (a : Option String)
    (now : Nat) (t : TaskMetadata) (h : tm.get id = some t)
    (hs : t.status = TaskStatus.pending) :
    tm.start_task id a now
      = ⟨{ tm with tasks := TaskManager.updateById tm.tasks id (startUpd a now) },
         true, [TaskManager.startedPayload (startUpd a now t)]⟩ := by
  have hneq : (t.status != TaskStatus.pending) = false := by rw [hs]; rfl
  rw [TaskManager.start_task, h]
  simp only [hneq, Bool.false_eq_true, if_false]
  rfl

/-- `start_task` on an existing non-pending task: rejected, nothing changes. -/
theorem start_task_notpending (tm : TaskManager) (id : String) (a : Option String)
    (now : Nat) (t : TaskMetadata) (h : tm.get id = some t)
    (hs : t.status ≠ TaskStatus.pending) :
    tm.start_task id a now = ⟨tm, false, []⟩ := by
  have hneq : (t.status != TaskStatus.pending) = true := by
    cases hst : t.status <;> simp_all
  rw [TaskManager.start_task, h]
  simp only [hneq, if_true]

/-- `complete_task` on an existing running task. -/
theorem complete_task_running (tm : TaskManager) (id : String) (r : Option Value)
    (now : Nat) (t : TaskMetadata) (h : tm.get id = some t)
    (hs : t.status = TaskStatus.running) :
    tm.complete_task id r now
      = ⟨{ tm with tasks := TaskManager.updateById tm.tasks id (completeUpd r now) },
         true, [TaskManager.completedPayload (completeUpd r now t) r]⟩ := by
  have hneq : (t.status != TaskStatus.running) = false := by rw [hs]; rfl
  rw [TaskManager.complete_task, h]
  simp only [hneq, Bool.false_eq_true, if_false]
  rfl

/-- `complete_task` on an existing non-running task: rejected, nothing
changes. -/
theorem complete_task_notrunning (tm : TaskManager) (id : String)
    (r : Option Value) (now : Nat) (t : TaskMetadata) (h : tm.get id = some t)
    (hs : t.status ≠ TaskStatus.running) :
    tm.complete_task id r now = ⟨tm, false, []⟩ := by
  have hneq : (t.status != TaskStatus.running) = true := by
    cases hst : t.status <;> simp_all
  rw [TaskManager.complete_task, h]
  simp only [hneq, if_true]

/-- `fail_task` on any existing task — no status guard in the source. -/
theorem fail_task_existing (tm : TaskManager) (id : String) (e : String)
    (now : Nat) (t : TaskMetadata) (h : tm.get id = some t) :
    tm.fail_task id e now
      = ⟨{ tm with tasks := TaskManager.updateById tm.tasks id (failUpd e now) },
         true, [TaskManager.failedPayload (failUpd e now t) e]⟩ := by
  rw [TaskManager.fail_task, h]
  rfl

end Helpers

section HistoryHelpers

/-- `takeLast` as a reversed `take` on the reversed list. -/
theorem takeLast_eq (l : List α) (n : Nat) :
    takeLast l n = (l.reverse.take n).reverse := by
  have h := @List.reverse_take α l.reverse n
  simp only [List.length_reverse, List.reverse_reverse] at h
  rw [takeLast]
  exact h.symm

/-- Keeping only the last `H` elements before appending does not change the
last `H` elements of the whole. -/
theorem takeLast_takeLast_append (a b : List α) (H : Nat) :
    takeLast (takeLast a H ++ b) H = takeLast (a ++ b) H := by
  rw [takeLast_eq a H, takeLast_eq, takeLast_eq]
  rw [List.reverse_append, List.reverse_reverse, List.reverse_append]
  congr 1
  rw [List.take_append_eq_append_take, List.take_append_eq_append_take,
      List.take_take]
  congr 1
  rw [Nat.min_comm, Nat.min_def]
  by_cases h : H ≤ H - b.reverse.length
  · have : H - b.reverse.length = H := Nat.le_antisymm (Nat.sub_le _ _) h
    rw [if_pos h, this]
  · rw [if_neg h]

/-- Folding `emitState` over a list of events from a history within the cap:
the stored history is always the last `max_history` events of everything seen
so far. -/
theorem foldl_emitState (H : Nat) (subs : List Subscription)
    (evs : List SignalPayload) :
    ∀ h0 : List SignalPayload, h0.length ≤ H →
      (evs.foldl SignalEmitter.emitState
        { subscribers := subs, signal_history := h0, max_history := H }).signal_history
        = takeLast (h0 ++ evs) H := by
  induction evs with
  | nil =>
    intro h0 hlen
    show h0 = takeLast (h0 ++ []) H
    rw [List.append_nil, takeLast, Nat.sub_eq_zero_of_le hlen, List.drop_zero]
  | cons s evs ih =>
    intro h0 hlen
    have hstep : SignalEmitter.emitState
        { subscribers := subs, signal_history := h0, max_history := H } s
        = { subscribers := subs, signal_history := takeLast (h0 ++ [s]) H,
            max_history := H } := by
      rw [SignalEmitter.emitState]
      by_cases hgt : (h0 ++ [s]).length > H
      · simp only [hgt, if_true]
      · simp only [hgt, if_false]
        have hle : (h0 ++ [s]).length ≤ H := Nat.le_of_not_lt hgt
        rw [takeLast, Nat.sub_eq_zero_of_le hle, List.drop_zero]
    have hlen1 : (takeLast (h0 ++ [s]) H).length ≤ H := by
      rw [takeLast, List.length_drop]
      omega
    show (List.foldl SignalEmitter.emitState _ evs).signal_history = _
    rw [hstep, ih _ hlen1, takeLast_takeLast_append, List.append_assoc]
    rfl

end HistoryHelpers

/-- Claim C7: after emitting `N` events on a bus with history cap `H > 0`,
the stored history is exactly the last `min N H` of them (oldest dropped
first), and `get_history` with no filters and a sufficient limit returns them
most-recent-first. -/
theorem C7_history_cap (H : Nat) (subs : List Subscription)
    (evs : List SignalPayload) (limit : Nat) (hH : 0 < H)
    (hlim : min evs.length H ≤ limit) :
    (evs.foldl SignalEmitter.emitState
        { subscribers := subs, signal_history := [], max_history := H }).signal_history
      = evs.drop (evs.length - H)
    ∧ (evs.foldl SignalEmitter.emitState
        { subscribers := subs, signal_history := [], max_history := H }).signal_history.length
      = min evs.length H
    ∧ (evs.foldl SignalEmitter.emitState
        { subscribers := subs, signal_history := [], max_history := H }).get_history
        none none limit
      = (evs.drop (evs.length - H)).reverse := by
  have hfold := foldl_emitState H subs evs [] (Nat.zero_le H)
  rw [List.nil_append] at hfold
  have hlen : (evs.foldl SignalEmitter.emitState
      { subscribers := subs, signal_history := [], max_history := H }).signal_history.length
      = min evs.length H := by
    rw [hfold, takeLast, List.length_drop]
    omega
  refine ⟨hfold, hlen, ?_⟩
  rw [SignalEmitter.get_history]
  show (sliceLast (evs.foldl SignalEmitter.emitState
      { subscribers := subs, signal_history := [], max_history := H }).signal_history
      limit).reverse = _
  rw [sliceLast]
  by_cases hz : limit = 0
  · subst hz
    have h0 : min evs.length H = 0 := Nat.le_zero.mp hlim
    have : (evs.foldl SignalEmitter.emitState
        { subscribers := subs, signal_history := [], max_history := H }).signal_history
        = [] := List.eq_nil_of_length_eq_zero (by rw [hlen, h0])
    rw [if_pos rfl, this]
    have hdrop : evs.drop (evs.length - H) = [] := by
      show takeLast evs H = []
      rw [← hfold]
      exact this
    rw [hdrop]
  · rw [if_neg hz, takeLast, hlen, Nat.sub_eq_zero_of_le hlim, List.drop_zero,
        hfold, takeLast]

/-- Claim C7, witness: cap 2, three events — the stored history is the last
two events and `get_history` returns them newest-first. -/
theorem C7_witness :
    0 < 2 ∧ min evsC7.length 2 ≤ 2
    ∧ ((evsC7.foldl SignalEmitter.emitState
        { subscribers := [], signal_history := [], max_history := 2 }).signal_history
      = evsC7.drop (evsC7.length - 2)
    ∧ (evsC7.foldl SignalEmitter.emitState
        { subscribers := [], signal_history := [], max_history := 2 }).signal_history.length
      = min evsC7.length 2
    ∧ (evsC7.foldl SignalEmitter.emitState
        { subscribers := [], signal_history := [], max_history := 2 }).get_history
        none none 2
      = (evsC7.drop (evsC7.length - 2)).reverse) :=
  ⟨by decide, by decide, C7_history_cap 2 [] evsC7 2 (by decide) (by decide)⟩

/-- The code's matching test, as a proposition: the signal type is subscribed
and the task filter is `None`, the empty string (Python falsy), or the
event's task id. -/
theorem subMatches_iff (sub : Subscription) (s : SignalPayload) :
    SignalEmitter.subMatches sub s = true ↔
      s.signal_type ∈ sub.signal_types
      ∧ (sub.task_filter = none ∨ sub.task_filter = some ""
          ∨ sub.task_filter = some s.task_id) := by
  rw [SignalEmitter.subMatches, Bool.and_eq_true]
  apply and_congr
  · exact List.elem_iff
  · rw [Bool.not_eq_true']
    cases htf : sub.task_filter with
    | none => simp [SignalEmitter.filterBlocks]
    | some f =>
      simp only [SignalEmitter.filterBlocks, Bool.and_eq_false_iff]
      constructor
      · rintro (hf | hf)
        · exact Or.inr (Or.inl (by simpa using hf))
        · exact Or.inr (Or.inr (by simpa using hf))
      · rintro (hf | hf | hf)
        · exact absurd hf (by simp)
        · exact Or.inl (by simpa using hf)
        · exact Or.inr (by simpa using hf)

/-- Claim C8, counterexample: a subscriber whose task filter is `""` is
invoked for an event with task id `"t1"` (Python treats the empty-string
filter as falsy, hence as no filter), although the claimed rule — filter nil
or equal to the event's task id — does not hold for it. -/
theorem C8_counterexample :
    SignalEmitter.matching emC8 evC8 = [subEmptyFilter]
    ∧ ¬ claimFilterRule subEmptyFilter evC8 := by
  refine ⟨rfl, ?_⟩
  rintro ⟨-, h | h⟩ <;> simp [subEmptyFilter, evC8] at h

/-- Claim C8 (amended): `emit` invokes the callbacks of exactly those
currently-registered subscribers whose kind set contains the event's kind and
whose task filter is nil, the empty string, or the event's task id; and a
callback that raises is caught: the observer effects of delivery are the same
whether or not any callback raises, so one subscriber's exception never
prevents delivery to the remaining subscribers nor reaches the emitter. -/
theorem C8_emit_matching (e : SignalEmitter) (s : SignalPayload) :
    (∀ sub, sub ∈ e.matching s ↔ sub ∈ e.subscribers
      ∧ s.signal_type ∈ sub.signal_types
      ∧ (sub.task_filter = none ∨ sub.task_filter = some ""
          ∨ sub.task_filter = some s.task_id))
    ∧ (∀ (σ : Type) (eff : Nat → SignalPayload → σ → σ)
        (errs : Nat → SignalPayload → Option String) (st : σ),
        (e.emit s (fun n p x => (eff n p x, errs n p)) st).2
          = (e.emit s (fun n p x => (eff n p x, none)) st).2) := by
  constructor
  · intro sub
    rw [SignalEmitter.matching, List.mem_filter, subMatches_iff]
  · intro σ eff errs st
    rfl

/-- Claim C9: subscribing twice under one subscriber id accumulates two
distinct subscription entries (no replacement); an event matching both
entries is delivered once per entry; a single `unsubscribe(id)` removes every
entry under that id; and `unsubscribe` returns true exactly when at least one
entry carried the id. -/
theorem C9_subscribe_accumulates (e : SignalEmitter) (id : String)
    (ty1 ty2 : List SignalType) (cb1 cb2 : Nat) (tf1 tf2 : Option String) :
    ((e.subscribe id ty1 cb1 tf1).1.subscribe id ty2 cb2 tf2).1.subscribers
      = e.subscribers ++ [⟨id, ty1, cb1, tf1⟩, ⟨id, ty2, cb2, tf2⟩]
    ∧ (∀ s, SignalEmitter.subMatches ⟨id, ty1, cb1, tf1⟩ s = true →
        SignalEmitter.subMatches ⟨id, ty2, cb2, tf2⟩ s = true →
        ((e.subscribe id ty1 cb1 tf1).1.subscribe id ty2 cb2 tf2).1.matching s
          = e.matching s ++ [⟨id, ty1, cb1, tf1⟩, ⟨id, ty2, cb2, tf2⟩])
    ∧ ((((e.subscribe id ty1 cb1 tf1).1.subscribe id ty2 cb2 tf2).1.unsubscribe
          id).1.subscribers
        = e.subscribers.filter (fun sub => !(sub.subscriber_id == id)))
    ∧ ((((e.subscribe id ty1 cb1 tf1).1.subscribe id ty2 cb2 tf2).1.unsubscribe
          id).2 = true)
    ∧ (∀ (em : SignalEmitter) (i : String),
        (em.unsubscribe i).2 = true ↔ ∃ sub ∈ em.subscribers, sub.subscriber_id = i) := by
  have hq1 : List.filter (fun sub => !(sub.subscriber_id == id))
      [Subscription.mk id ty1 cb1 tf1] = [] := by simp
  have hq2 : List.filter (fun sub => !(sub.subscriber_id == id))
      [Subscription.mk id ty2 cb2 tf2] = [] := by simp
  refine ⟨?_, ?_, ?_, ?_, ?_⟩
  · show (e.subscribers ++ [Subscription.mk id ty1 cb1 tf1])
        ++ [Subscription.mk id ty2 cb2 tf2] = _
    rw [List.append_assoc]
    rfl
  · intro s h1 h2
    show ((e.subscribers ++ [Subscription.mk id ty1 cb1 tf1])
        ++ [Subscription.mk id ty2 cb2 tf2]).filter
        (fun sub => SignalEmitter.subMatches sub s) = _
    rw [List.filter_append, List.filter_append]
    rw [List.append_assoc]
    congr 1
    simp [h1, h2]
  · show ((e.subscribers ++ [Subscription.mk id ty1 cb1 tf1])
        ++ [Subscription.mk id ty2 cb2 tf2]).filter
        (fun sub => !(sub.subscriber_id == id)) = _
    rw [List.filter_append, List.filter_append, hq1, hq2,
        List.append_nil, List.append_nil]
  · show decide ((((e.subscribers ++ [Subscription.mk id ty1 cb1 tf1])
        ++ [Subscription.mk id ty2 cb2 tf2]).filter
        (fun sub => !(sub.subscriber_id == id))).length
        < ((e.subscribers ++ [Subscription.mk id ty1 cb1 tf1])
            ++ [Subscription.mk id ty2 cb2 tf2]).length) = true
    rw [decide_eq_true_eq, List.filter_append, List.filter_append, hq1, hq2,
        List.append_nil, List.append_nil, List.length_append, List.length_append]
    have hle := List.length_filter_le (fun sub => !(sub.subscriber_id == id))
      e.subscribers
    simp only [List.length_singleton]
    omega
  · intro em i
    rw [SignalEmitter.unsubscribe]
    show decide _ = true ↔ _
    rw [decide_eq_true_eq]
    rw [List.length_filter_lt_length_iff_exists]
    constructor
    · rintro ⟨sub, hmem, hsub⟩
      exact ⟨sub, hmem, by simpa using hsub⟩
    · rintro ⟨sub, hmem, hsub⟩
      exact ⟨sub, hmem, by simpa using hsub⟩

section SequentialHelpers

/-- The single-task execution invokes either nothing (missing task/binding)
or exactly the requested task. -/
theorem orch_invoked_cases (tm : TaskManager) (funcs : FuncTable)
    (id : String) (now : Nat) :
    (TaskOrchestrator.execute_task tm funcs id now).invoked = []
      ∨ (TaskOrchestrator.execute_task tm funcs id now).invoked = [id] := by
  cases hg : tm.get id with
  | none =>
    exact Or.inl (orch_exec_invalid tm funcs id now (by rw [hg]; rfl)).2.2
  | some t =>
    cases hf : funcs id with
    | none =>
      exact Or.inl (orch_exec_invalid tm funcs id now (by rw [hg, hf]; rfl)).2.2
    | some f =>
      exact Or.inr (orch_exec_result tm funcs id now f (by rw [hg]; rfl) hf).2

/-- A returned value from the single-task execution pins down the task's
existence, its binding and the invocation trace. -/
theorem orch_result_ok_inv (tm : TaskManager) (funcs : FuncTable)
    (id : String) (now : Nat) (v : Value)
    (h : (TaskOrchestrator.execute_task tm funcs id now).result = .ok v) :
    (tm.get id).isSome = true ∧ funcs id = some (.ok v)
      ∧ (TaskOrchestrator.execute_task tm funcs id now).invoked = [id] := by
  cases hg : tm.get id with
  | none =>
    obtain ⟨-, ⟨e, he⟩, -⟩ := orch_exec_invalid tm funcs id now (by rw [hg]; rfl)
    rw [h] at he
    exact absurd he (by simp)
  | some t =>
    cases hf : funcs id with
    | none =>
      obtain ⟨-, ⟨e, he⟩, -⟩ := orch_exec_invalid tm funcs id now (by rw [hg, hf]; rfl)
      rw [h] at he
      exact absurd he (by simp)
    | some f =>
      obtain ⟨hres, hinv⟩ := orch_exec_result tm funcs id now f (by rw [hg]; rfl) hf
      rw [h] at hres
      subst hres
      exact ⟨rfl, rfl, hinv⟩

/-- Unfolding `execute_tasks_sequential` on a head task that returns a
value. -/
theorem seq_cons_ok (tm : TaskManager) (funcs : FuncTable) (a : String)
    (rest : List String) (now : Nat) (v : Value)
    (h : (TaskOrchestrator.execute_task tm funcs a now).result = .ok v) :
    TaskOrchestrator.execute_tasks_sequential tm funcs (a :: rest) now
      = ⟨(TaskOrchestrator.execute_tasks_sequential
            (TaskOrchestrator.execute_task tm funcs a now).tm funcs rest now).tm,
         (a, v) :: (TaskOrchestrator.execute_tasks_sequential
            (TaskOrchestrator.execute_task tm funcs a now).tm funcs rest now).results,
         (TaskOrchestrator.execute_task tm funcs a now).invoked
           ++ (TaskOrchestrator.execute_tasks_sequential
              (TaskOrchestrator.execute_task tm funcs a now).tm funcs rest now).invoked⟩ := by
  rw [TaskOrchestrator.execute_tasks_sequential, h]

/-- Unfolding `execute_tasks_sequential` on a head task that raises: the loop
breaks with no result entry and the remainder never attempted. -/
theorem seq_cons_err (tm : TaskManager) (funcs : FuncTable) (a : String)
    (rest : List String) (now : Nat) (e : String)
    (h : (TaskOrchestrator.execute_task tm funcs a now).result = .error e) :
    TaskOrchestrator.execute_tasks_sequential tm funcs (a :: rest) now
      = ⟨(TaskOrchestrator.execute_task tm funcs a now).tm, [],
         (TaskOrchestrator.execute_task tm funcs a now).invoked⟩ := by
  rw [TaskOrchestrator.execute_tasks_sequential, h]

end SequentialHelpers

/-- Claim C5: `execute_tasks_sequential` runs the list in order and stops at
the first failing task: the returned map's keys are exactly the longest
all-successful prefix of the id list in order; the invocation trace is a
prefix of the ids up to and including the first failure, so no later task is
ever attempted; every recorded entry is a task that exists and whose bound
callable returned that value; and when the map is shorter than the input, the
id at the cut-off position failed: it is missing, unbound, or bound to a
raising callable — with no entry for it or anything after it. -/
theorem C5_sequential (tm : TaskManager) (funcs : FuncTable)
    (ids : List String) (now : Nat) :
    (TaskOrchestrator.execute_tasks_sequential tm funcs ids now).results.map Prod.fst
      = ids.take (TaskOrchestrator.execute_tasks_sequential tm funcs ids now).results.length
    ∧ (TaskOrchestrator.execute_tasks_sequential tm funcs ids now).invoked
      <+: ids.take
        ((TaskOrchestrator.execute_tasks_sequential tm funcs ids now).results.length + 1)
    ∧ (∀ p ∈ (TaskOrchestrator.execute_tasks_sequential tm funcs ids now).results,
        (tm.get p.1).isSome = true ∧ funcs p.1 = some (.ok p.2))
    ∧ ((TaskOrchestrator.execute_tasks_sequential tm funcs ids now).results.length
        < ids.length →
      ¬((tm.get (ids.getD
          (TaskOrchestrator.execute_tasks_sequential tm funcs ids now).results.length
          "")).isSome = true
        ∧ ∃ v, funcs (ids.getD
          (TaskOrchestrator.execute_tasks_sequential tm funcs ids now).results.length
          "") = some (.ok v))) := by
  induction ids generalizing tm with
  | nil =>
    refine ⟨rfl, ?_, ?_, ?_⟩
    · exact List.nil_prefix
    · intro p hp
      exact absurd hp (by simp [TaskOrchestrator.execute_tasks_sequential])
    · intro hlt
      exact absurd hlt (by simp [TaskOrchestrator.execute_tasks_sequential])
  | cons a rest ih =>
    cases hres : (TaskOrchestrator.execute_task tm funcs a now).result with
    | ok v =>
      obtain ⟨hg, hf, hinv⟩ := orch_result_ok_inv tm funcs a now v hres
      have hseq := seq_cons_ok tm funcs a rest now v hres
      obtain ⟨ih1, ih2, ih3, ih4⟩ :=
        ih (TaskOrchestrator.execute_task tm funcs a now).tm
      refine ⟨?_, ?_, ?_, ?_⟩
      · rw [hseq]
        show a :: _ = (a :: rest).take (_ + 1)
        rw [List.take_succ_cons]
        exact congrArg (a :: ·) ih1
      · rw [hseq]
        show (TaskOrchestrator.execute_task tm funcs a now).invoked ++ _
          <+: (a :: rest).take (_ + 1 + 1)
        rw [hinv, List.take_succ_cons, List.singleton_append]
        exact List.cons_prefix_cons.mpr ⟨rfl, ih2⟩
      · rw [hseq]
        intro p hp
        rcases List.mem_cons.mp hp with hpa | hptail
        · subst hpa
          exact ⟨hg, hf⟩
        · obtain ⟨h1, h2⟩ := ih3 p hptail
          rw [orch_exec_get_isSome] at h1
          exact ⟨h1, h2⟩
      · rw [hseq]
        intro hlt
        show ¬((tm.get ((a :: rest).getD (_ + 1) "")).isSome = true ∧ _)
        rw [List.getD_cons_succ]
        intro hcon
        obtain ⟨h1, h2⟩ := hcon
        rw [← orch_exec_get_isSome tm funcs a now] at h1
        exact ih4 (by simpa using hlt) ⟨h1, h2⟩
    | error e =>
      have hseq := seq_cons_err tm funcs a rest now e hres
      refine ⟨?_, ?_, ?_, ?_⟩
      · rw [hseq]
        rfl
      · rw [hseq]
        show (TaskOrchestrator.execute_task tm funcs a now).invoked
          <+: (a :: rest).take (0 + 1)
        rcases orch_invoked_cases tm funcs a now with hi | hi <;> rw [hi] <;> simp
      · rw [hseq]
        intro p hp
        exact absurd hp (by simp)
      · rw [hseq]
        intro hlt
        show ¬((tm.get ((a :: rest).getD 0 "")).isSome = true ∧ _)
        rw [List.getD_cons_zero]
        rintro ⟨h1, v, h2⟩
        have := (orch_exec_result tm funcs a now (.ok v) h1 h2).1
        rw [hres] at this
        exact absurd this (by simp)

/-- Claim C5, witness: running `[a, b, c]` where `b` raises records only
`a`, invokes only `a` and `b`, and leaves `c` unattempted with no entry. -/
theorem C5_witness :
    (TaskOrchestrator.execute_tasks_sequential tmSeq funcsSeq ["a", "b", "c"] 0).results.map
        Prod.fst
      = ["a", "b", "c"].take (TaskOrchestrator.execute_tasks_sequential tmSeq funcsSeq
          ["a", "b", "c"] 0).results.length
    ∧ (TaskOrchestrator.execute_tasks_sequential tmSeq funcsSeq ["a", "b", "c"] 0).invoked
      <+: ["a", "b", "c"].take
        ((TaskOrchestrator.execute_tasks_sequential tmSeq funcsSeq
          ["a", "b", "c"] 0).results.length + 1)
    ∧ (∀ p ∈ (TaskOrchestrator.execute_tasks_sequential tmSeq funcsSeq
          ["a", "b", "c"] 0).results,
        (tmSeq.get p.1).isSome = true ∧ funcsSeq p.1 = some (.ok p.2))
    ∧ ((TaskOrchestrator.execute_tasks_sequential tmSeq funcsSeq
          ["a", "b", "c"] 0).results.length < (["a", "b", "c"] : List String).length →
      ¬((tmSeq.get ((["a", "b", "c"] : List String).getD
          (TaskOrchestrator.execute_tasks_sequential tmSeq funcsSeq
            ["a", "b", "c"] 0).results.length "")).isSome = true
        ∧ ∃ v, funcsSeq ((["a", "b", "c"] : List String).getD
          (TaskOrchestrator.execute_tasks_sequential tmSeq funcsSeq
            ["a", "b", "c"] 0).results.length "") = some (.ok v))) :=
  C5_sequential tmSeq funcsSeq ["a", "b", "c"] 0

section ParallelHelpers

/-- `lookupLast` over a keyed map built from distinct inputs. -/
theorem lookupLast_map (F : String → Except String Value) (subs : List String)
    (k : String) :
    TaskOrchestrator.lookupLast (subs.map (fun id => (id, F id))) k
      = if k ∈ subs then some (F k) else none := by
  rw [TaskOrchestrator.lookupLast, ← List.map_reverse, List.find?_map]
  cases hfind : subs.reverse.find? ((fun kv => kv.1 == k) ∘ (fun id => (id, F id))) with
  | none =>
    have hnk : k ∉ subs := by
      intro hk
      have hk' : k ∈ subs.reverse := List.mem_reverse.mpr hk
      have := List.find?_eq_none.mp hfind k hk'
      simp at this
    rw [if_neg hnk]
    rfl
  | some a =>
    have ha : ((fun kv => kv.1 == k) ∘ (fun id => (id, F id))) a = true :=
      List.find?_some hfind
    have hak : a = k := by simpa using ha
    have hmem : a ∈ subs := List.mem_reverse.mp (List.mem_of_find?_eq_some hfind)
    rw [hak] at hmem
    rw [if_pos hmem]
    show some (a, F a).2 = some (F k)
    rw [hak]

/-- The submit-and-run fold: the futures' outcomes are each submitted id
paired with its callable's outcome (existence of tasks is preserved along the
way, so every submission finds its task and the executor returns the
callable's own result). -/
theorem par_run_outcomes (tm : TaskManager) (funcs : FuncTable) (now : Nat) :
    ∀ (subs : List String) (tm0 : TaskManager)
      (out0 : List (String × Except String Value)) (inv0 : List String),
      (∀ k, (tm0.get k).isSome = (tm.get k).isSome) →
      (∀ id ∈ subs, (tm.get id).isSome = true) →
      (subs.foldl (TaskOrchestrator.parStep funcs now) (tm0, out0, inv0)).2.1
        = out0 ++ subs.map (fun id => (id, excOf funcs id)) := by
  intro subs
  induction subs with
  | nil =>
    intro tm0 out0 inv0 htm0 hval
    simp
  | cons a rest ih =>
    intro tm0 out0 inv0 htm0 hval
    have hga : (tm0.get a).isSome = true := by
      rw [htm0 a]
      exact hval a (List.mem_cons_self a rest)
    have hres := (exec_result_invoked tm0 a (excOf funcs a) now hga).1
    have hinit : TaskOrchestrator.parStep funcs now (tm0, out0, inv0) a
        = ((TaskExecutor.execute_task tm0 a (excOf funcs a) now).tm,
           out0 ++ [(a, excOf funcs a)],
           inv0 ++ (TaskExecutor.execute_task tm0 a (excOf funcs a) now).invoked) := by
      show ((TaskExecutor.execute_task tm0 a (excOf funcs a) now).tm,
            out0 ++ [(a, (TaskExecutor.execute_task tm0 a (excOf funcs a) now).result)],
            inv0 ++ (TaskExecutor.execute_task tm0 a (excOf funcs a) now).invoked) = _
      rw [hres]
    show (rest.foldl (TaskOrchestrator.parStep funcs now)
        (TaskOrchestrator.parStep funcs now (tm0, out0, inv0) a)).2.1 = _
    rw [hinit,
        ih (TaskExecutor.execute_task tm0 a (excOf funcs a) now).tm
          (out0 ++ [(a, excOf funcs a)])
          (inv0 ++ (TaskExecutor.execute_task tm0 a (excOf funcs a) now).invoked)
          (fun k => by rw [exec_get_isSome]; exact htm0 k)
          (fun id hid => hval id (List.mem_cons_of_mem a hid)),
        List.map_cons, List.append_assoc]
    rfl

/-- `dictInsert` leaves the key sequence unchanged when the key is present
and appends it otherwise. -/
theorem dictInsert_keys (acc : List (String × Option Value)) (k : String)
    (v : Option Value) :
    (TaskOrchestrator.dictInsert acc k v).map Prod.fst
      = if acc.any (fun kv => kv.1 == k) then acc.map Prod.fst
        else acc.map Prod.fst ++ [k] := by
  rw [TaskOrchestrator.dictInsert]
  by_cases h : acc.any (fun kv => kv.1 == k)
  · rw [if_pos h, if_pos h, List.map_map]
    apply List.map_congr_left
    intro kv _
    show (if kv.1 == k then ((k, v) : String × Option Value) else kv).1 = kv.1
    by_cases hkv : (kv.1 == k) = true
    · rw [if_pos hkv]
      have hk : kv.1 = k := by simpa using hkv
      rw [hk]
    · rw [if_neg (by simp [hkv])]
  · rw [if_neg h, if_neg h, List.map_append]
    rfl

/-- Presence of a key in the dict is exactly a successful first lookup. -/
theorem any_key_iff_findq (acc : List (String × Option Value)) (k : String) :
    acc.any (fun kv => kv.1 == k) = (acc.find? (fun kv => kv.1 == k)).isSome := by
  by_cases h : acc.any (fun kv => kv.1 == k)
  · rw [h]
    obtain ⟨kv, hmem, hp⟩ := List.any_eq_true.mp h
    exact (List.find?_isSome.mpr ⟨kv, hmem, hp⟩).symm
  · rw [Bool.not_eq_true] at h
    rw [h]
    cases hfind : acc.find? (fun kv => kv.1 == k) with
    | none => rfl
    | some kv =>
      have hp := @List.find?_some (String × Option Value) (fun kv => kv.1 == k) kv acc hfind
      have hmem := List.mem_of_find?_eq_some hfind
      have hany : acc.any (fun kv => kv.1 == k) = true :=
        List.any_eq_true.mpr ⟨kv, hmem, hp⟩
      rw [h] at hany
      exact absurd hany (by simp)

/-- Looking up the inserted key. -/
theorem findq_dictInsert_self (acc : List (String × Option Value)) (k : String)
    (v : Option Value) :
    (TaskOrchestrator.dictInsert acc k v).find? (fun kv => kv.1 == k)
      = some (k, v) := by
  rw [TaskOrchestrator.dictInsert]
  by_cases h : acc.any (fun kv => kv.1 == k)
  · rw [if_pos h]
    have hpred : ∀ kv : String × Option Value,
        ((if kv.1 == k then ((k, v) : String × Option Value) else kv).1 == k)
          = (kv.1 == k) := by
      intro kv
      by_cases hkv : (kv.1 == k) = true
      · rw [if_pos hkv, hkv]
        simp
      · rw [if_neg (by simp [hkv])]
    rw [findq_map_pred _ _ hpred]
    obtain ⟨kv, hmem, hp⟩ := List.any_eq_true.mp h
    cases hfind : acc.find? (fun kv => kv.1 == k) with
    | none =>
      rw [List.find?_eq_none] at hfind
      exact absurd hp (hfind kv hmem)
    | some kv0 =>
      have hkv0 := @List.find?_some (String × Option Value) (fun kv => kv.1 == k) kv0 acc hfind
      show some (if kv0.1 == k then ((k, v) : String × Option Value) else kv0) = some (k, v)
      rw [if_pos hkv0]
  · rw [if_neg h, List.find?_append]
    have hnone : acc.find? (fun kv => kv.1 == k) = none := by
      rw [List.find?_eq_none]
      intro kv hkv hp
      exact h (List.any_eq_true.mpr ⟨kv, hkv, hp⟩)
    rw [hnone]
    show [(k, v)].find? (fun kv => kv.1 == k) = some (k, v)
    simp

/-- Looking up a different key after an insert. -/
theorem findq_dictInsert_ne (acc : List (String × Option Value)) (k k' : String)
    (hk : k' ≠ k) (v : Option Value) :
    (TaskOrchestrator.dictInsert acc k v).find? (fun kv => kv.1 == k')
      = acc.find? (fun kv => kv.1 == k') := by
  rw [TaskOrchestrator.dictInsert]
  by_cases h : acc.any (fun kv => kv.1 == k)
  · rw [if_pos h]
    have hpred : ∀ kv : String × Option Value,
        ((if kv.1 == k then ((k, v) : String × Option Value) else kv).1 == k')
          = (kv.1 == k') := by
      intro kv
      by_cases hkv : (kv.1 == k) = true
      · rw [if_pos hkv]
        have hk1 : kv.1 = k := by simpa using hkv
        rw [hk1]
      · rw [if_neg (by simp [hkv])]
    rw [findq_map_pred _ _ hpred]
    cases hfind : acc.find? (fun kv => kv.1 == k') with
    | none => rfl
    | some kv0 =>
      have hkv0 := @List.find?_some (String × Option Value) (fun kv => kv.1 == k') kv0 acc hfind
      have hne : (kv0.1 == k) = false := by
        have h1 : kv0.1 = k' := by simpa using hkv0
        rw [h1]
        exact beq_eq_false_iff_ne.mpr hk
      show some (if kv0.1 == k then ((k, v) : String × Option Value) else kv0) = some kv0
      rw [hne]
      rfl
  · rw [if_neg h, List.find?_append]
    have h2 : [(k, v)].find? (fun kv => kv.1 == k') = none := by
      rw [List.find?_eq_none]
      intro kv hkv hp
      have hkkv : kv = (k, v) := by simpa using hkv
      rw [hkkv] at hp
      have : k = k' := by simpa using hp
      exact hk this.symm
    rw [h2, Option.or_none]

/-- Stepping `buildResults` over the head id. -/
theorem buildResults_cons (outcomes : List (String × Except String Value))
    (id : String) (rest : List String) (acc : List (String × Option Value)) :
    TaskOrchestrator.buildResults outcomes (id :: rest) acc
      = TaskOrchestrator.buildResults outcomes rest
          (match TaskOrchestrator.lookupLast outcomes id with
           | none => acc
           | some exc => TaskOrchestrator.dictInsert acc id
               (match exc with | .ok v => some v | .error _ => none)) := rfl

/-- Invariant of the result-collection fold: starting from a well-formed
accumulator whose entries are correct, the final dict has exactly one
correctly-valued entry for each key that was already present or is a valid
id of the remaining list, and no entry for any other key. -/
theorem buildResults_spec (outcomes : List (String × Except String Value))
    (vB : String → Bool) (eOf : String → Except String Value) :
    ∀ (ids : List String) (acc : List (String × Option Value)),
      (∀ id ∈ ids, TaskOrchestrator.lookupLast outcomes id
        = if vB id then some (eOf id) else none) →
      (∀ k, (acc.find? (fun kv => kv.1 == k) = some (k, excToSlot (eOf k))
          ∧ (acc.map Prod.fst).count k = 1)
        ∨ (acc.find? (fun kv => kv.1 == k) = none
          ∧ (acc.map Prod.fst).count k = 0)) →
      ∀ k,
        ((TaskOrchestrator.buildResults outcomes ids acc).find? (fun kv => kv.1 == k)
            = some (k, excToSlot (eOf k))
          ∧ ((TaskOrchestrator.buildResults outcomes ids acc).map Prod.fst).count k = 1
          ∧ ((acc.find? (fun kv => kv.1 == k)).isSome = true
              ∨ (k ∈ ids ∧ vB k = true)))
        ∨ ((TaskOrchestrator.buildResults outcomes ids acc).find? (fun kv => kv.1 == k)
            = none
          ∧ ((TaskOrchestrator.buildResults outcomes ids acc).map Prod.fst).count k = 0
          ∧ ¬((acc.find? (fun kv => kv.1 == k)).isSome = true
              ∨ (k ∈ ids ∧ vB k = true))) := by
  intro ids
  induction ids with
  | nil =>
    intro acc hout hacc k
    rcases hacc k with ⟨hf, hc⟩ | ⟨hf, hc⟩
    · exact Or.inl ⟨hf, hc, Or.inl (by rw [hf]; rfl)⟩
    · refine Or.inr ⟨hf, hc, ?_⟩
      rintro (hs | ⟨hmem, -⟩)
      · rw [hf] at hs
        exact absurd hs (by simp)
      · exact absurd hmem (by simp)
  | cons a rest ih =>
    intro acc hout hacc k
    rw [buildResults_cons, hout a (List.mem_cons_self a rest)]
    by_cases hva : vB a = true
    · rw [if_pos hva]
      show ((TaskOrchestrator.buildResults outcomes rest
          (TaskOrchestrator.dictInsert acc a (excToSlot (eOf a)))).find? _ = _ ∧ _ ∧ _) ∨ _
      have hacc' : ∀ k', ((TaskOrchestrator.dictInsert acc a (excToSlot (eOf a))).find?
            (fun kv => kv.1 == k') = some (k', excToSlot (eOf k'))
          ∧ ((TaskOrchestrator.dictInsert acc a (excToSlot (eOf a))).map Prod.fst).count k' = 1)
        ∨ ((TaskOrchestrator.dictInsert acc a (excToSlot (eOf a))).find?
            (fun kv => kv.1 == k') = none
          ∧ ((TaskOrchestrator.dictInsert acc a (excToSlot (eOf a))).map Prod.fst).count k' = 0) := by
        intro k'
        by_cases hk' : k' = a
        · subst hk'
          left
          refine ⟨findq_dictInsert_self acc k' _, ?_⟩
          rw [dictInsert_keys, any_key_iff_findq]
          rcases hacc k' with ⟨hf, hc⟩ | ⟨hf, hc⟩
          · rw [hf]
            simpa using hc
          · rw [hf]
            show (acc.map Prod.fst ++ [k']).count k' = 1
            rw [List.count_append, hc]
            simp
        · rw [findq_dictInsert_ne acc a k' hk' _]
          have hcnt : ((TaskOrchestrator.dictInsert acc a (excToSlot (eOf a))).map
              Prod.fst).count k' = (acc.map Prod.fst).count k' := by
            rw [dictInsert_keys]
            by_cases hany : acc.any (fun kv => kv.1 == a)
            · rw [if_pos hany]
            · rw [if_neg hany, List.count_append]
              have : ([a] : List String).count k' = 0 := by
                simp [List.count_singleton]
                exact fun hc => hk' hc.symm
              rw [this, Nat.add_zero]
          rcases hacc k' with ⟨hf, hc⟩ | ⟨hf, hc⟩
          · exact Or.inl ⟨hf, by rw [hcnt]; exact hc⟩
          · exact Or.inr ⟨hf, by rw [hcnt]; exact hc⟩
      have hrest := ih (TaskOrchestrator.dictInsert acc a (excToSlot (eOf a)))
        (fun id hid => hout id (List.mem_cons_of_mem a hid)) hacc' k
      have hiff : ((TaskOrchestrator.dictInsert acc a (excToSlot (eOf a))).find?
            (fun kv => kv.1 == k)).isSome = true ∨ (k ∈ rest ∧ vB k = true)
          ↔ (acc.find? (fun kv => kv.1 == k)).isSome = true
            ∨ (k ∈ a :: rest ∧ vB k = true) := by
        by_cases hk : k = a
        · subst hk
          rw [findq_dictInsert_self acc k _]
          simp [hva]
        · rw [findq_dictInsert_ne acc a k hk _]
          constructor
          · rintro (hs | ⟨hmem, hv⟩)
            · exact Or.inl hs
            · exact Or.inr ⟨List.mem_cons_of_mem a hmem, hv⟩
          · rintro (hs | ⟨hmem, hv⟩)
            · exact Or.inl hs
            · rcases List.mem_cons.mp hmem with h1 | h1
              · exact absurd h1 hk
              · exact Or.inr ⟨h1, hv⟩
      rcases hrest with ⟨h1, h2, h3⟩ | ⟨h1, h2, h3⟩
      · exact Or.inl ⟨h1, h2, hiff.mp h3⟩
      · exact Or.inr ⟨h1, h2, fun hc => h3 (hiff.mpr hc)⟩
    · rw [if_neg hva]
      show ((TaskOrchestrator.buildResults outcomes rest acc).find? _ = _ ∧ _ ∧ _) ∨ _
      have hrest := ih acc (fun id hid => hout id (List.mem_cons_of_mem a hid)) hacc k
      have hiff : (acc.find? (fun kv => kv.1 == k)).isSome = true ∨ (k ∈ rest ∧ vB k = true)
          ↔ (acc.find? (fun kv => kv.1 == k)).isSome = true
            ∨ (k ∈ a :: rest ∧ vB k = true) := by
        constructor
        · rintro (hs | ⟨hmem, hv⟩)
          · exact Or.inl hs
          · exact Or.inr ⟨List.mem_cons_of_mem a hmem, hv⟩
        · rintro (hs | ⟨hmem, hv⟩)
          · exact Or.inl hs
          · rcases List.mem_cons.mp hmem with h1 | h1
            · rw [h1] at hv
              rw [hv] at hva
              exact absurd rfl hva
            · exact Or.inr ⟨h1, hv⟩
      rcases hrest with ⟨h1, h2, h3⟩ | ⟨h1, h2, h3⟩
      · exact Or.inl ⟨h1, h2, hiff.mp h3⟩
      · exact Or.inr ⟨h1, h2, fun hc => h3 (hiff.mpr hc)⟩

end ParallelHelpers

/-- Claim C3, counterexample: submitting a single id that is not in the
registry yields an EMPTY result map — not one entry per submitted id (the
submit loop skips missing ids with `continue`, and the collection loop then
finds no future for them). -/
theorem C3_counterexample :
    (TaskOrchestrator.execute_tasks_parallel {} (fun _ => none) ["x"] 0).results = []
    ∧ ((TaskOrchestrator.execute_tasks_parallel {} (fun _ => none) ["x"] 0).results.map
        Prod.fst).count "x" = 0 :=
  ⟨rfl, rfl⟩

/-- Claim C3 (amended): `execute_tasks_parallel` returns a result map with
exactly one entry per submitted id that exists in the registry and has a
bound callable: such an id maps to its callable's value on success and to a
`none` slot when the callable raises (no error aborts the batch); ids that
are missing from the registry or unbound are skipped and get no entry, as
does any id not in the list. -/
theorem C3_parallel (tm : TaskManager) (funcs : FuncTable) (ids : List String)
    (now : Nat) :
    (∀ k, ((TaskOrchestrator.execute_tasks_parallel tm funcs ids now).results.map
        Prod.fst).count k
      = if k ∈ ids ∧ ((tm.get k).isSome && (funcs k).isSome) = true then 1 else 0)
    ∧ (∀ k f, k ∈ ids → (tm.get k).isSome = true → funcs k = some f →
        (TaskOrchestrator.execute_tasks_parallel tm funcs ids now).results.find?
            (fun kv => kv.1 == k) = some (k, excToSlot f))
    ∧ (∀ k, ¬(k ∈ ids ∧ ((tm.get k).isSome && (funcs k).isSome) = true) →
        (TaskOrchestrator.execute_tasks_parallel tm funcs ids now).results.find?
            (fun kv => kv.1 == k) = none) := by
  have hsubs_mem : ∀ id ∈ TaskOrchestrator.parallelSubmissions tm funcs ids,
      (tm.get id).isSome = true := by
    intro id hid
    have h2 := (List.mem_filter.mp hid).2
    simp only [Bool.and_eq_true] at h2
    exact h2.1
  have houtc := par_run_outcomes tm funcs now
    (TaskOrchestrator.parallelSubmissions tm funcs ids) tm [] []
    (fun k => rfl) hsubs_mem
  have hres_eq : (TaskOrchestrator.execute_tasks_parallel tm funcs ids now).results
      = TaskOrchestrator.buildResults
          ((TaskOrchestrator.parallelSubmissions tm funcs ids).foldl
            (TaskOrchestrator.parStep funcs now) (tm, [], [])).2.1 ids [] := rfl
  have hout : ∀ id ∈ ids, TaskOrchestrator.lookupLast
      ((TaskOrchestrator.parallelSubmissions tm funcs ids).foldl
        (TaskOrchestrator.parStep funcs now) (tm, [], [])).2.1 id
      = if ((tm.get id).isSome && (funcs id).isSome) = true
        then some (excOf funcs id) else none := by
    intro id hid
    rw [houtc, List.nil_append, lookupLast_map]
    have hmem_iff : id ∈ TaskOrchestrator.parallelSubmissions tm funcs ids
        ↔ ((tm.get id).isSome && (funcs id).isSome) = true := by
      constructor
      · intro hc
        exact (List.mem_filter.mp hc).2
      · intro hv
        exact List.mem_filter.mpr ⟨hid, hv⟩
    by_cases hv : ((tm.get id).isSome && (funcs id).isSome) = true
    · rw [if_pos (hmem_iff.mpr hv), if_pos hv]
    · rw [if_neg (fun hc => hv (hmem_iff.mp hc)), if_neg hv]
  have hspec := buildResults_spec
    ((TaskOrchestrator.parallelSubmissions tm funcs ids).foldl
      (TaskOrchestrator.parStep funcs now) (tm, [], [])).2.1
    (fun k => (tm.get k).isSome && (funcs k).isSome) (excOf funcs) ids []
    hout (fun k => Or.inr ⟨rfl, rfl⟩)
  refine ⟨?_, ?_, ?_⟩
  · intro k
    rw [hres_eq]
    rcases hspec k with ⟨h1, h2, h3⟩ | ⟨h1, h2, h3⟩
    · rcases h3 with hs | hmem
      · exact absurd hs (by simp)
      · rw [h2, if_pos hmem]
    · rw [h2, if_neg (fun hc => h3 (Or.inr hc))]
  · intro k f hk hg hf
    have hvB : ((tm.get k).isSome && (funcs k).isSome) = true := by
      rw [hg, hf]
      rfl
    rcases hspec k with ⟨h1, h2, h3⟩ | ⟨h1, h2, h3⟩
    · rw [hres_eq, h1]
      have hex : excOf funcs k = f := by
        rw [excOf, hf]
        rfl
      rw [hex]
    · exact absurd (Or.inr ⟨hk, hvB⟩) h3
  · intro k hk
    rcases hspec k with ⟨h1, h2, h3⟩ | ⟨h1, h2, h3⟩
    · rcases h3 with hs | hc
      · exact absurd hs (by simp)
      · exact absurd hc hk
    · rw [hres_eq, h1]

/-- Claim C3, witness: ids `a` (succeeds), `b` (raises) and `x` (not in the
registry): one entry each for `a` and `b` — `b`'s slot empty — and none for
`x`. -/
theorem C3_witness :
    (∀ k, ((TaskOrchestrator.execute_tasks_parallel tmSeq funcsSeq ["a", "b", "x"] 0).results.map
        Prod.fst).count k
      = if k ∈ ["a", "b", "x"] ∧ ((tmSeq.get k).isSome && (funcsSeq k).isSome) = true
        then 1 else 0)
    ∧ (∀ k f, k ∈ ["a", "b", "x"] → (tmSeq.get k).isSome = true → funcsSeq k = some f →
        (TaskOrchestrator.execute_tasks_parallel tmSeq funcsSeq ["a", "b", "x"] 0).results.find?
            (fun kv => kv.1 == k) = some (k, excToSlot f))
    ∧ (∀ k, ¬(k ∈ ["a", "b", "x"] ∧ ((tmSeq.get k).isSome && (funcsSeq k).isSome) = true) →
        (TaskOrchestrator.execute_tasks_parallel tmSeq funcsSeq ["a", "b", "x"] 0).results.find?
            (fun kv => kv.1 == k) = none) :=
  C3_parallel tmSeq funcsSeq ["a", "b", "x"] 0

section ReadySortHelpers

/-- Membership in the stable priority sort is membership in the input. -/
theorem mem_sortByPriorityDesc (l : List TaskMetadata) (t : TaskMetadata) :
    t ∈ TaskManager.sortByPriorityDesc l ↔ t ∈ l := by
  unfold TaskManager.sortByPriorityDesc
  cases hp : t.priority <;> simp_all [List.mem_filter]

/-- Members of a priority class have that priority. -/
theorem mem_priority_class (l : List TaskMetadata) (p : TaskPriority)
    (a : TaskMetadata) (ha : a ∈ l.filter (fun t => t.priority == p)) :
    a.priority = p := by
  have := (List.mem_filter.mp ha).2
  simpa using this

/-- The stable priority sort is sorted by descending priority value. -/
theorem pairwise_sortByPriorityDesc (l : List TaskMetadata) :
    (TaskManager.sortByPriorityDesc l).Pairwise
      (fun a b => b.priority.value ≤ a.priority.value) := by
  have hclass : ∀ p, (l.filter (fun t => t.priority == p)).Pairwise
      (fun a b => b.priority.value ≤ a.priority.value) := by
    intro p
    refine List.pairwise_of_forall_mem_list ?_
    intro a ha b hb
    rw [mem_priority_class l p a ha, mem_priority_class l p b hb]
  have hall : ∀ p q : TaskPriority, q.value ≤ p.value →
      ∀ a ∈ l.filter (fun t => t.priority == p),
      ∀ b ∈ l.filter (fun t => t.priority == q),
        b.priority.value ≤ a.priority.value := by
    intro p q hpq a ha b hb
    rw [mem_priority_class l p a ha, mem_priority_class l q b hb]
    exact hpq
  unfold TaskManager.sortByPriorityDesc
  refine List.pairwise_append.mpr
    ⟨List.pairwise_append.mpr
      ⟨List.pairwise_append.mpr ⟨hclass _, hclass _, ?_⟩, hclass _, ?_⟩,
     hclass _, ?_⟩
  · exact hall .critical .high (by decide)
  · intro a ha b hb
    rcases List.mem_append.mp ha with h | h
    · exact hall .critical .normal (by decide) a h b hb
    · exact hall .high .normal (by decide) a h b hb
  · intro a ha b hb
    rcases List.mem_append.mp ha with h | h
    · rcases List.mem_append.mp h with h2 | h2
      · exact hall .critical .low (by decide) a h2 b hb
      · exact hall .high .low (by decide) a h2 b hb
    · exact hall .normal .low (by decide) a h b hb

/-- Filtering one priority class out of a different class gives nothing. -/
theorem filter_class_ne (l : List TaskMetadata) (p q : TaskPriority)
    (hq : q ≠ p) :
    (l.filter (fun t => t.priority == q)).filter (fun t => t.priority == p)
      = [] := by
  refine List.filter_eq_nil_iff.mpr ?_
  intro a ha
  have haq : a.priority = q := mem_priority_class l q a ha
  simp [haq, hq]

/-- Filtering a priority class by its own priority is the identity. -/
theorem filter_class_self (l : List TaskMetadata) (p : TaskPriority) :
    (l.filter (fun t => t.priority == p)).filter (fun t => t.priority == p)
      = l.filter (fun t => t.priority == p) := by
  refine List.filter_eq_self.mpr ?_
  intro a ha
  simp [mem_priority_class l p a ha]

/-- The stable priority sort preserves each priority class verbatim: the
equal-priority subsequence is exactly the input subsequence (ties keep the
input order). -/
theorem filter_sortByPriorityDesc (l : List TaskMetadata) (p : TaskPriority) :
    (TaskManager.sortByPriorityDesc l).filter (fun t => t.priority == p)
      = l.filter (fun t => t.priority == p) := by
  unfold TaskManager.sortByPriorityDesc
  rw [List.filter_append, List.filter_append, List.filter_append]
  cases p
  · rw [filter_class_self, filter_class_ne l _ _ (by decide),
        filter_class_ne l _ _ (by decide), filter_class_ne l _ _ (by decide)]
    simp
  · rw [filter_class_self, filter_class_ne l _ _ (by decide),
        filter_class_ne l _ _ (by decide), filter_class_ne l _ _ (by decide)]
    simp
  · rw [filter_class_self, filter_class_ne l _ _ (by decide),
        filter_class_ne l _ _ (by decide), filter_class_ne l _ _ (by decide)]
    simp
  · rw [filter_class_self, filter_class_ne l _ _ (by decide),
        filter_class_ne l _ _ (by decide), filter_class_ne l _ _ (by decide)]
    simp

end ReadySortHelpers

/-- Claim C4: `get_ready_tasks` returns exactly the pending tasks whose
dependency set is contained in the completed ids (in particular the empty
registry yields an empty list), sorted by descending priority value, with
each equal-priority class appearing exactly in creation (registry) order. -/
theorem C4_ready_tasks (tm : TaskManager) :
    (∀ t, t ∈ tm.get_ready_tasks ↔
      t ∈ tm.tasks ∧ t.status = .pending
        ∧ ∀ d ∈ t.dependencies, d ∈ tm.completedIds)
    ∧ tm.get_ready_tasks.Pairwise (fun a b => b.priority.value ≤ a.priority.value)
    ∧ (∀ p, tm.get_ready_tasks.filter (fun t => t.priority == p)
        = (tm.tasks.filter (fun t => t.is_ready tm.completedIds)).filter
            (fun t => t.priority == p))
    ∧ TaskManager.get_ready_tasks {} = [] := by
  refine ⟨?_, ?_, ?_, rfl⟩
  · intro t
    rw [TaskManager.get_ready_tasks, mem_sortByPriorityDesc, List.mem_filter]
    simp [TaskMetadata.is_ready, List.elem_iff]
  · exact pairwise_sortByPriorityDesc _
  · intro p
    exact filter_sortByPriorityDesc _ p

/-- Claim C4, witness: the readiness characterization applied to the mixed
fixture. -/
theorem C4_witness :
    (∀ t, t ∈ tmReady.get_ready_tasks ↔
      t ∈ tmReady.tasks ∧ t.status = .pending
        ∧ ∀ d ∈ t.dependencies, d ∈ tmReady.completedIds)
    ∧ tmReady.get_ready_tasks.Pairwise (fun a b => b.priority.value ≤ a.priority.value)
    ∧ (∀ p, tmReady.get_ready_tasks.filter (fun t => t.priority == p)
        = (tmReady.tasks.filter (fun t => t.is_ready tmReady.completedIds)).filter
            (fun t => t.priority == p))
    ∧ TaskManager.get_ready_tasks {} = [] :=
  C4_ready_tasks tmReady

/-- Claim C8, witness: the amended matching characterization applied to the
empty-string-filter fixture. -/
theorem C8_witness :
    (∀ sub, sub ∈ emC8.matching evC8 ↔ sub ∈ emC8.subscribers
      ∧ evC8.signal_type ∈ sub.signal_types
      ∧ (sub.task_filter = none ∨ sub.task_filter = some ""
          ∨ sub.task_filter = some evC8.task_id))
    ∧ (∀ (σ : Type) (eff : Nat → SignalPayload → σ → σ)
        (errs : Nat → SignalPayload → Option String) (st : σ),
        (emC8.emit evC8 (fun n p x => (eff n p x, errs n p)) st).2
          = (emC8.emit evC8 (fun n p x => (eff n p x, none)) st).2) :=
  C8_emit_matching emC8 evC8

/-- Claim C9, witness: two subscriptions under the id `"dup"` on the empty
emitter. -/
theorem C9_witness :
    ((SignalEmitter.subscribe ({} : SignalEmitter) "dup" [.task_completed] 1
        none).1.subscribe "dup" [.task_completed, .task_started] 2 (some "t1")).1.subscribers
      = ({} : SignalEmitter).subscribers
        ++ [⟨"dup", [.task_completed], 1, none⟩,
            ⟨"dup", [.task_completed, .task_started], 2, some "t1"⟩]
    ∧ (∀ s, SignalEmitter.subMatches ⟨"dup", [.task_completed], 1, none⟩ s = true →
        SignalEmitter.subMatches ⟨"dup", [.task_completed, .task_started], 2,
          some "t1"⟩ s = true →
        ((SignalEmitter.subscribe ({} : SignalEmitter) "dup" [.task_completed] 1
            none).1.subscribe "dup" [.task_completed, .task_started] 2
            (some "t1")).1.matching s
          = ({} : SignalEmitter).matching s
            ++ [⟨"dup", [.task_completed], 1, none⟩,
                ⟨"dup", [.task_completed, .task_started], 2, some "t1"⟩])
    ∧ ((((SignalEmitter.subscribe ({} : SignalEmitter) "dup" [.task_completed] 1
            none).1.subscribe "dup" [.task_completed, .task_started] 2
            (some "t1")).1.unsubscribe "dup").1.subscribers
        = ({} : SignalEmitter).subscribers.filter
            (fun sub => !(sub.subscriber_id == "dup")))
    ∧ ((((SignalEmitter.subscribe ({} : SignalEmitter) "dup" [.task_completed] 1
            none).1.subscribe "dup" [.task_completed, .task_started] 2
            (some "t1")).1.unsubscribe "dup").2 = true)
    ∧ (∀ (em : SignalEmitter) (i : String),
        (em.unsubscribe i).2 = true ↔ ∃ sub ∈ em.subscribers, sub.subscriber_id = i) :=
  C9_subscribe_accumulates {} "dup" [.task_completed] [.task_completed, .task_started]
    1 2 none (some "t1")

/-- Claim C1, counterexample: on a task whose `start` fails (here: a task in
the completed status, so `start_task` returns `false`), `execute_task`
nevertheless invokes the bound callable — the source ignores `start_task`'s
boolean and never reports "task not runnable". -/
theorem C1_counterexample :
    (tmCompleted.start_task "t" none 0).ok = false
    ∧ (TaskOrchestrator.execute_task tmCompleted funcsOk "t" 0).invoked = ["t"] :=
  ⟨rfl, rfl⟩

/-- Claim C1 (amended): for a task that exists and has a bound callable,
`executeTask` calls `Registry.start(id)` but ignores its boolean result: the
callable is invoked (exactly once) regardless of whether start succeeded, and
no "task not runnable" outcome exists.  The callable's outcome is returned or
re-raised unchanged; on success from a pending task the task ends completed
with the result recorded; on a raised error the task ends failed with the
error recorded; and when start failed because the task was neither pending
nor running, a successful callable leaves the registry unchanged (the
`complete` call is also rejected). -/
theorem C1_execute_ignores_start (tm : TaskManager) (funcs : FuncTable)
    (id : String) (now : Nat) (t : TaskMetadata) (f : Except String Value)
    (h : tm.get id = some t) (hf : funcs id = some f) :
    (TaskOrchestrator.execute_task tm funcs id now).invoked = [id]
    ∧ (TaskOrchestrator.execute_task tm funcs id now).result = f
    ∧ (∀ v, f = .ok v → t.status = .pending →
        ∃ t', (TaskOrchestrator.execute_task tm funcs id now).tm.get id = some t'
          ∧ t'.status = .completed ∧ t'.result = some v)
    ∧ (∀ e, f = .error e →
        ∃ t', (TaskOrchestrator.execute_task tm funcs id now).tm.get id = some t'
          ∧ t'.status = .failed ∧ t'.error = some e)
    ∧ (∀ v, f = .ok v → t.status ≠ .pending → t.status ≠ .running →
        (TaskOrchestrator.execute_task tm funcs id now).tm = tm) := by
  have horch : TaskOrchestrator.execute_task tm funcs id now
      = TaskExecutor.execute_task tm id f now := by
    rw [TaskOrchestrator.execute_task, h, hf]
  have hsome : (tm.get id).isSome = true := by rw [h]; rfl
  obtain ⟨hres, hinv⟩ := exec_result_invoked tm id f now hsome
  refine ⟨by rw [horch, hinv], by rw [horch, hres], ?_, ?_, ?_⟩
  · intro v hfv hp
    subst hfv
    have hexec : TaskExecutor.execute_task tm id (.ok v) now
        = ⟨((tm.start_task id none now).tm.complete_task id (some v) now).tm,
           .ok v,
           (tm.start_task id none now).events
             ++ ((tm.start_task id none now).tm.complete_task id (some v) now).events,
           [id]⟩ := by
      rw [TaskExecutor.execute_task, h]
    have hget1 : (tm.start_task id none now).tm.get id = some (startUpd none now t) := by
      rw [start_task_pending tm id none now t h hp]
      exact get_updateById_self tm id (startUpd none now) (fun u => rfl) t h
    have hcomp := complete_task_running (tm.start_task id none now).tm id
      (some v) now (startUpd none now t) hget1 rfl
    refine ⟨completeUpd (some v) now (startUpd none now t), ?_, rfl, rfl⟩
    rw [horch, hexec]
    show (((tm.start_task id none now).tm.complete_task id (some v) now).tm).get id = _
    rw [hcomp]
    exact get_updateById_self (tm.start_task id none now).tm id (completeUpd (some v) now) (fun u => rfl) _ hget1
  · intro e hfe
    subst hfe
    have hexec : TaskExecutor.execute_task tm id (.error e) now
        = ⟨((tm.start_task id none now).tm.fail_task id e now).tm,
           .error e,
           (tm.start_task id none now).events
             ++ ((tm.start_task id none now).tm.fail_task id e now).events,
           [id]⟩ := by
      rw [TaskExecutor.execute_task, h]
    by_cases hp : t.status = TaskStatus.pending
    · have hget1 : (tm.start_task id none now).tm.get id
          = some (startUpd none now t) := by
        rw [start_task_pending tm id none now t h hp]
        exact get_updateById_self tm id (startUpd none now) (fun u => rfl) t h
      refine ⟨failUpd e now (startUpd none now t), ?_, rfl, rfl⟩
      rw [horch, hexec]
      show (((tm.start_task id none now).tm.fail_task id e now).tm).get id = _
      rw [fail_task_existing (tm.start_task id none now).tm id e now _ hget1]
      exact get_updateById_self (tm.start_task id none now).tm id (failUpd e now) (fun u => rfl) _ hget1
    · have hstart := start_task_notpending tm id none now t h hp
      refine ⟨failUpd e now t, ?_, rfl, rfl⟩
      rw [horch, hexec]
      show (((tm.start_task id none now).tm.fail_task id e now).tm).get id = _
      rw [hstart]
      show ((tm.fail_task id e now).tm).get id = _
      rw [fail_task_existing tm id e now t h]
      exact get_updateById_self tm id (failUpd e now) (fun u => rfl) t h
  · intro v hfv hp hr
    subst hfv
    have hexec : TaskExecutor.execute_task tm id (.ok v) now
        = ⟨((tm.start_task id none now).tm.complete_task id (some v) now).tm,
           .ok v,
           (tm.start_task id none now).events
             ++ ((tm.start_task id none now).tm.complete_task id (some v) now).events,
           [id]⟩ := by
      rw [TaskExecutor.execute_task, h]
    have hstart := start_task_notpending tm id none now t h hp
    rw [horch, hexec]
    show (((tm.start_task id none now).tm.complete_task id (some v) now).tm) = tm
    rw [hstart]
    show ((tm.complete_task id (some v) now).tm) = tm
    rw [complete_task_notrunning tm id (some v) now t h hr]

/-- Claim C1, witness: the amended theorem applied to the pending fixture. -/
theorem C1_witness :
    tmPending.get "t" = some tPending
    ∧ funcsOk "t" = some (.ok (.vNat 1))
    ∧ ((TaskOrchestrator.execute_task tmPending funcsOk "t" 0).invoked = ["t"]
    ∧ (TaskOrchestrator.execute_task tmPending funcsOk "t" 0).result = .ok (.vNat 1)
    ∧ (∀ v, (Except.ok (ε := String) (Value.vNat 1)) = .ok v → tPending.status = .pending →
        ∃ t', (TaskOrchestrator.execute_task tmPending funcsOk "t" 0).tm.get "t" = some t'
          ∧ t'.status = .completed ∧ t'.result = some v)
    ∧ (∀ e, (Except.ok (ε := String) (Value.vNat 1)) = .error e →
        ∃ t', (TaskOrchestrator.execute_task tmPending funcsOk "t" 0).tm.get "t" = some t'
          ∧ t'.status = .failed ∧ t'.error = some e)
    ∧ (∀ v, (Except.ok (ε := String) (Value.vNat 1)) = .ok v → tPending.status ≠ .pending →
        tPending.status ≠ .running →
        (TaskOrchestrator.execute_task tmPending funcsOk "t" 0).tm = tmPending)) :=
  ⟨rfl, rfl,
   C1_execute_ignores_start tmPending funcsOk "t" 0 tPending (.ok (.vNat 1)) rfl rfl⟩

/-- Claim C2, counterexample: `fail_task` on a task already in the terminal
completed status returns `true` and overwrites the status to failed — the
source has no status guard in `fail_task`. -/
theorem C2_counterexample :
    (tmCompleted.fail_task "t" "boom" 7).ok = true
    ∧ ((tmCompleted.fail_task "t" "boom" 7).tm.get "t").map TaskMetadata.status
        = some TaskStatus.failed :=
  ⟨rfl, rfl⟩

/-- Claim C2 (amended): `fail_task` succeeds for every task present in the
registry regardless of its current status — including the terminal statuses —
setting failed + end time + error, emitting exactly one failed event, and
leaving every other task unchanged; only a missing id makes it return false. -/
theorem C2_fail_ignores_terminal (tm : TaskManager) (id err : String) (now : Nat)
    (t : TaskMetadata) (h : tm.get id = some t) :
    (tm.fail_task id err now).ok = true
    ∧ (tm.fail_task id err now).tm.get id
        = some { t with status := .failed, completed_at := some now, error := some err }
    ∧ (tm.fail_task id err now).events.map SignalPayload.signal_type
        = [SignalType.task_failed]
    ∧ (∀ k, k ≠ id → (tm.fail_task id err now).tm.get k = tm.get k) := by
  rw [fail_task_existing tm id err now t h]
  refine ⟨rfl, ?_, rfl, ?_⟩
  · exact get_updateById_self tm id (failUpd err now) (fun u => rfl) t h
  · intro k hk
    exact get_updateById_ne tm id k hk _ (fun u => rfl)

/-- Claim C2, witness: the amended theorem applied to the completed fixture. -/
theorem C2_witness :
    tmCompleted.get "t" = some tCompleted
    ∧ ((tmCompleted.fail_task "t" "boom" 7).ok = true
    ∧ (tmCompleted.fail_task "t" "boom" 7).tm.get "t"
        = some { tCompleted with status := .failed, completed_at := some 7, error := some "boom" }
    ∧ (tmCompleted.fail_task "t" "boom" 7).events.map SignalPayload.signal_type
        = [SignalType.task_failed]
    ∧ (∀ k, k ≠ "t" → (tmCompleted.fail_task "t" "boom" 7).tm.get k
        = tmCompleted.get k)) :=
  ⟨rfl, C2_fail_ignores_terminal tmCompleted "t" "boom" 7 tCompleted rfl⟩

/-- Claim C6: on a running task, the first `complete_task` returns true, sets
completed status with result and end time and emits exactly one completed
event; the second returns false, leaves the whole registry state unchanged
and emits nothing. -/
theorem C6_complete_twice (tm : TaskManager) (id : String) (r r' : Option Value)
    (now now' : Nat) (t : TaskMetadata) (h : tm.get id = some t)
    (hs : t.status = TaskStatus.running) :
    (tm.complete_task id r now).ok = true
    ∧ (tm.complete_task id r now).tm.get id
        = some { t with status := .completed, completed_at := some now, result := r }
    ∧ (tm.complete_task id r now).events.map SignalPayload.signal_type
        = [SignalType.task_completed]
    ∧ ((tm.complete_task id r now).tm.complete_task id r' now').ok = false
    ∧ ((tm.complete_task id r now).tm.complete_task id r' now').tm
        = (tm.complete_task id r now).tm
    ∧ ((tm.complete_task id r now).tm.complete_task id r' now').events = [] := by
  have h1 := complete_task_running tm id r now t h hs
  have hget : (tm.complete_task id r now).tm.get id = some (completeUpd r now t) := by
    rw [h1]
    exact get_updateById_self tm id (completeUpd r now) (fun u => rfl) t h
  have h2 := complete_task_notrunning (tm.complete_task id r now).tm id r' now'
    (completeUpd r now t) hget (by simp [completeUpd])
  exact ⟨by rw [h1], hget, by rw [h1]; rfl, by rw [h2], by rw [h2], by rw [h2]⟩

/-- Claim C6, witness: the theorem applied to the running fixture. -/
theorem C6_witness :
    tmRunning.get "t" = some tRunning
    ∧ tRunning.status = TaskStatus.running
    ∧ ((tmRunning.complete_task "t" (some (.vNat 1)) 5).ok = true
    ∧ (tmRunning.complete_task "t" (some (.vNat 1)) 5).tm.get "t"
        = some { tRunning with status := .completed, completed_at := some 5, result := some (.vNat 1) }
    ∧ (tmRunning.complete_task "t" (some (.vNat 1)) 5).events.map
        SignalPayload.signal_type = [SignalType.task_completed]
    ∧ ((tmRunning.complete_task "t" (some (.vNat 1)) 5).tm.complete_task "t"
        (some (.vNat 2)) 9).ok = false
    ∧ ((tmRunning.complete_task "t" (some (.vNat 1)) 5).tm.complete_task "t"
        (some (.vNat 2)) 9).tm
        = (tmRunning.complete_task "t" (some (.vNat 1)) 5).tm
    ∧ ((tmRunning.complete_task "t" (some (.vNat 1)) 5).tm.complete_task "t"
        (some (.vNat 2)) 9).events = []) :=
  ⟨rfl, rfl,
   C6_complete_twice tmRunning "t" (some (.vNat 1)) (some (.vNat 2)) 5 9 tRunning rfl rfl⟩

/-- Claim C10: a successful `start_task` rewrites the task list pointwise:
tasks with a different id are untouched; every field other than status, start
timestamp and (when a worker argument was given) the assigned agent id is
preserved on every task; the started task gets status running and the given
start time; and when no agent argument is given the agent id is preserved
too. -/
theorem C10_start_frame (tm : TaskManager) (id : String) (a : Option String)
    (now : Nat) (h : (tm.start_task id a now).ok = true) :
    ∃ g : TaskMetadata → TaskMetadata,
      (tm.start_task id a now).tm.tasks = tm.tasks.map g
      ∧ (∀ u, u.task_id ≠ id → g u = u)
      ∧ (∀ u, (g u).task_id = u.task_id ∧ (g u).name = u.name
          ∧ (g u).description = u.description ∧ (g u).priority = u.priority
          ∧ (g u).dependencies = u.dependencies
          ∧ (g u).parent_task_id = u.parent_task_id
          ∧ (g u).created_at = u.created_at ∧ (g u).completed_at = u.completed_at
          ∧ (g u).error = u.error ∧ (g u).result = u.result
          ∧ (g u).execution_mode = u.execution_mode
          ∧ (g u).metadata = u.metadata)
      ∧ (∀ u, u.task_id = id →
          (g u).status = .running ∧ (g u).started_at = some now)
      ∧ (a = none → ∀ u, (g u).agent_id = u.agent_id) := by
  have hex : ∃ t, tm.get id = some t ∧ t.status = TaskStatus.pending := by
    by_contra hc
    push_neg at hc
    cases hg : tm.get id with
    | none =>
      rw [TaskManager.start_task, hg] at h
      exact Bool.false_ne_true h
    | some t =>
      rw [start_task_notpending tm id a now t hg (hc t hg)] at h
      exact Bool.false_ne_true h
  obtain ⟨t, hg, hp⟩ := hex
  refine ⟨fun u => if u.task_id == id then startUpd a now u else u, ?_, ?_, ?_, ?_, ?_⟩
  · rw [start_task_pending tm id a now t hg hp]
    rfl
  · intro u hu
    simp [hu]
  · intro u
    by_cases hu : u.task_id = id <;> simp [hu, startUpd]
  · intro u hu
    simp [hu, startUpd]
  · intro ha u
    subst ha
    by_cases hu : u.task_id = id <;> simp [hu, startUpd]

/-- Claim C10, witness: the theorem applied to the pending fixture with a
worker argument. -/
theorem C10_witness :
    (tmPending.start_task "t" (some "w") 3).ok = true
    ∧ (∃ g : TaskMetadata → TaskMetadata,
      (tmPending.start_task "t" (some "w") 3).tm.tasks = tmPending.tasks.map g
      ∧ (∀ u, u.task_id ≠ "t" → g u = u)
      ∧ (∀ u, (g u).task_id = u.task_id ∧ (g u).name = u.name
          ∧ (g u).description = u.description ∧ (g u).priority = u.priority
          ∧ (g u).dependencies = u.dependencies
          ∧ (g u).parent_task_id = u.parent_task_id
          ∧ (g u).created_at = u.created_at ∧ (g u).completed_at = u.completed_at
          ∧ (g u).error = u.error ∧ (g u).result = u.result
          ∧ (g u).execution_mode = u.execution_mode
          ∧ (g u).metadata = u.metadata)
      ∧ (∀ u, u.task_id = "t" →
          (g u).status = .running ∧ (g u).started_at = some 3)
      ∧ ((some "w" : Option String) = none → ∀ u, (g u).agent_id = u.agent_id)) :=
  ⟨rfl, C10_start_frame tmPending "t" (some "w") 3 rfl⟩
